import Mathlib

/-!
Shallow embedding of the JerryScript "new parser" core (statement parser,
pre-scanner and VM fragments) together with proofs about the behaviour of the
embedded functions.  Each definition mirrors one function or one code region of
the C sources; machine integers are modelled as `Nat`, fallible code returns
`Except`, and external collaborators (lexer primitives, the heap) are modelled
as pure operations on explicit state.
-/

set_option maxHeartbeats 1000000

namespace JerryParser

/-! ## Compact byte code (CBC) opcodes

Only the opcodes mentioned by the statement parser sources are modelled. -/

inductive cbc_opcode_t
  | CBC_PUSH_IDENT
  | CBC_PUSH_LITERAL
  | CBC_PUSH_TRUE
  | CBC_PUSH_FALSE
  | CBC_LOGICAL_NOT
  | CBC_STRICT_EQUAL
  | CBC_BRANCH_IF_TRUE_BACKWARD
  | CBC_BRANCH_IF_FALSE_BACKWARD
  | CBC_JUMP_BACKWARD
  | CBC_JUMP_FORWARD
  | CBC_JUMP_FORWARD_EXIT_CONTEXT
  | CBC_BRANCH_IF_FALSE_FORWARD
  | CBC_BRANCH_IF_TRUE_FORWARD
  | CBC_BRANCH_IF_STRICT_EQUAL
  | CBC_CONTEXT_END
  | CBC_ASSIGN_IDENT
  | CBC_ASSIGN
  | CBC_ASSIGN_PROP_STRING
  | CBC_PROP_GET
  | CBC_PROP_STRING_GET
  | CBC_POP
  | CBC_THROW
  | CBC_RETURN
  | CBC_RETURN_WITH_UNDEFINED
  deriving DecidableEq

inductive cbc_ext_opcode_t
  | CBC_EXT_NOP
  | CBC_EXT_TRY_CREATE_CONTEXT
  | CBC_EXT_CATCH
  | CBC_EXT_FINALLY
  | CBC_EXT_WITH_CREATE_CONTEXT
  | CBC_EXT_FOR_IN_CREATE_CONTEXT
  | CBC_EXT_FOR_IN_GET_NEXT
  | CBC_EXT_BRANCH_IF_FOR_IN_HAS_NEXT
  | CBC_EXT_PUSH_UNDEFINED_BASE
  | CBC_EXT_DEBUGGER
  deriving DecidableEq

/-! ## Parser error identifiers (the `parser_raise_error` sink) -/

inductive parser_error_t
  | PARSER_ERR_PRIMARY_EXP_EXPECTED
  | PARSER_ERR_EXPRESSION_EXPECTED
  | PARSER_ERR_INVALID_EXPRESSION
  | PARSER_ERR_LEFT_PAREN_EXPECTED
  | PARSER_ERR_RIGHT_PAREN_EXPECTED
  | PARSER_ERR_LEFT_BRACE_EXPECTED
  | PARSER_ERR_COLON_EXPECTED
  | PARSER_ERR_SEMICOLON_EXPECTED
  | PARSER_ERR_IDENTIFIER_EXPECTED
  | PARSER_ERR_ARGUMENT_LIST_EXPECTED
  | PARSER_ERR_OBJECT_ITEM_SEPARATOR_EXPECTED
  | PARSER_ERR_INVALID_BREAK
  | PARSER_ERR_INVALID_BREAK_LABEL
  | PARSER_ERR_INVALID_CONTINUE
  | PARSER_ERR_INVALID_CONTINUE_LABEL
  | PARSER_ERR_DUPLICATED_LABEL
  | PARSER_ERR_CATCH_FINALLY_EXPECTED
  | PARSER_ERR_WHILE_EXPECTED
  | PARSER_ERR_STRICT_IDENT_NOT_ALLOWED
  deriving DecidableEq

/-! ## C1: the literal-encoding selection in `vm_loop`

The constants live in `cbc.h`, which is not part of the sources; their exact
values are immaterial below (only `CBC_CODE_FLAGS_FULL_LITERAL_ENCODING ≠
cbc_literal_encoding_small` matters, which holds for any flag bit versus the
first enumerator). -/

/-- Modelled from the spec: `CBC_CODE_FLAGS_FULL_LITERAL_ENCODING` is the
status-flag bit of the code-blob header that selects the full literal
encoding (`cbc.h` is not among the sources; any non-zero bit works). -/
def CBC_CODE_FLAGS_FULL_LITERAL_ENCODING : Nat := 1

/-- Modelled from the spec: `cbc_literal_encoding_small` is the first
enumerator of the literal-encoding enumeration (`cbc.h` is not among the
sources), hence `0`. -/
def cbc_literal_encoding_small : Nat := 0

/-- The value of a C `==` comparison as an integer (1 for equal, 0 for not). -/
def c_int_eq (a b : Nat) : Nat := if a = b then 1 else 0

/-- The "Prepare" block of `vm_loop` (js-parser-scanner.c, the VM part),
with C operator precedence: `==` binds tighter than `&`, so the condition is
`status_flags & (CBC_CODE_FLAGS_FULL_LITERAL_ENCODING ==
cbc_literal_encoding_small)`.  Returns `(encoding_limit, encoding_delta)`. -/
def vm_loop_prepare_encoding (status_flags : Nat) : Nat × Nat :=
  if status_flags &&& c_int_eq CBC_CODE_FLAGS_FULL_LITERAL_ENCODING cbc_literal_encoding_small ≠ 0 then
    (255, 0xfe01)
  else
    (128, 0x8000)

/-- The same block with the test the claim describes:
`(status_flags & CBC_CODE_FLAGS_FULL_LITERAL_ENCODING) ==
cbc_literal_encoding_small` selects the small encoding. -/
def vm_loop_prepare_encoding_as_claimed (status_flags : Nat) : Nat × Nat :=
  if status_flags &&& CBC_CODE_FLAGS_FULL_LITERAL_ENCODING = cbc_literal_encoding_small then
    (255, 0xfe01)
  else
    (128, 0x8000)

/-- The "Prepare" block generalized over the (unknown) numeric values of the
two constants, to show the conclusion does not depend on the modelled
values. -/
def vm_loop_prepare_encoding_gen (full_flag small_enc status_flags : Nat) : Nat × Nat :=
  if status_flags &&& c_int_eq full_flag small_enc ≠ 0 then
    (255, 0xfe01)
  else
    (128, 0x8000)

/-! ## C10: `vm_op_add` -/

inductive ecma_type_t
  | ECMA_TYPE_SIMPLE
  | ECMA_TYPE_NUMBER
  | ECMA_TYPE_STRING
  | ECMA_TYPE_OBJECT
  deriving DecidableEq

inductive ecma_simple_value_t
  | ECMA_SIMPLE_VALUE_UNDEFINED
  | ECMA_SIMPLE_VALUE_NULL
  | ECMA_SIMPLE_VALUE_TRUE
  | ECMA_SIMPLE_VALUE_FALSE
  | ECMA_SIMPLE_VALUE_EMPTY
  deriving DecidableEq

/-- An `ecma_value_t`: a tagged value; numbers are modelled by `Int` (the
numeric payload is external to the VM sources). -/
inductive ecma_value_t
  | simple (v : ecma_simple_value_t)
  | number (n : Int)
  | string (s : Nat)
  | object (o : Nat)
  deriving DecidableEq

def ecma_get_value_type_field : ecma_value_t → ecma_type_t
  | .simple _ => .ECMA_TYPE_SIMPLE
  | .number _ => .ECMA_TYPE_NUMBER
  | .string _ => .ECMA_TYPE_STRING
  | .object _ => .ECMA_TYPE_OBJECT

def ecma_make_simple_value (v : ecma_simple_value_t) : ecma_value_t := .simple v

def ecma_is_value_undefined (v : ecma_value_t) : Bool :=
  v = .simple .ECMA_SIMPLE_VALUE_UNDEFINED

def ecma_is_value_null (v : ecma_value_t) : Bool :=
  v = .simple .ECMA_SIMPLE_VALUE_NULL

def ecma_is_value_boolean (v : ecma_value_t) : Bool :=
  v = .simple .ECMA_SIMPLE_VALUE_TRUE ∨ v = .simple .ECMA_SIMPLE_VALUE_FALSE

def ecma_is_value_number (v : ecma_value_t) : Bool :=
  match v with
  | .number _ => true
  | _ => false

def ecma_is_value_string (v : ecma_value_t) : Bool :=
  match v with
  | .string _ => true
  | _ => false

def ecma_is_value_object (v : ecma_value_t) : Bool :=
  match v with
  | .object _ => true
  | _ => false

def ecma_get_number_from_value : ecma_value_t → Int
  | .number n => n
  | _ => 0

/-- `vm_op_add` from the VM half of js-parser-scanner.c.  The
`JERRY_UNREACHABLE` exits are modelled by `none`. -/
def vm_op_add (lhs rhs : ecma_value_t) : Option ecma_value_t :=
  if ecma_get_value_type_field lhs ≠ ecma_get_value_type_field rhs then
    some (ecma_make_simple_value .ECMA_SIMPLE_VALUE_UNDEFINED)
  else if ecma_is_value_undefined lhs then
    some lhs
  else if ecma_is_value_null lhs then
    some lhs
  else if ecma_is_value_boolean lhs then
    some (ecma_make_simple_value .ECMA_SIMPLE_VALUE_UNDEFINED)
  else if ecma_is_value_number lhs then
    some (.number (ecma_get_number_from_value lhs + ecma_get_number_from_value rhs))
  else if ecma_is_value_string lhs then
    some (ecma_make_simple_value .ECMA_SIMPLE_VALUE_UNDEFINED)
  else if ecma_is_value_object lhs then
    some (ecma_make_simple_value .ECMA_SIMPLE_VALUE_UNDEFINED)
  else
    none

/-! ## C3 / C8: backward branches at the end of the loop statements

The last-opcode cache (`context_p->last_cbc_opcode`) is modelled by
`Option cbc_opcode_t`; `PARSER_CBC_UNAVAILABLE` is `none`.  The deferred
condition is compiled by the expression parser (external to these sources),
so its final cache state is an input.  Each end-of-loop function is modelled
as the list of emitter actions it performs after the condition was compiled,
paired with the cache state handed to the emitter. -/

inductive loop_end_event_t
  | set_branch_to_current_position
  | set_continues_to_current_position
  | compile_condition
  | compile_update_expression
  | emit_cbc_backward_branch (op : cbc_opcode_t) (start_offset : Nat)
  | set_breaks_to_current_position
  deriving DecidableEq

/-- The opcode-selection sequence that appears verbatim in
`parser_parse_do_while_statement_end`, `parser_parse_while_statement_end`
and `parser_parse_for_statement_end`: start from
`CBC_BRANCH_IF_TRUE_BACKWARD`, elide a trailing `CBC_LOGICAL_NOT`
(branch on false instead) or a trailing `CBC_PUSH_TRUE` (unconditional
jump). -/
def parser_loop_condition_branch (last_cbc_opcode : Option cbc_opcode_t) :
    cbc_opcode_t × Option cbc_opcode_t :=
  if last_cbc_opcode = some .CBC_LOGICAL_NOT then
    (.CBC_BRANCH_IF_FALSE_BACKWARD, none)
  else if last_cbc_opcode = some .CBC_PUSH_TRUE then
    (.CBC_JUMP_BACKWARD, none)
  else
    (.CBC_BRANCH_IF_TRUE_BACKWARD, last_cbc_opcode)

/-- `parser_parse_do_while_statement_end` after the frame pops: patch the
continues, compile the parenthesised condition, then either emit a backward
branch (opcode selected from the condition's last opcode) or, when the
condition folded to `CBC_PUSH_FALSE`, discard the push and emit nothing;
finally patch the breaks. -/
def parser_parse_do_while_statement_end (last_cbc_opcode : Option cbc_opcode_t)
    (start_offset : Nat) : List loop_end_event_t × Option cbc_opcode_t :=
  if last_cbc_opcode ≠ some .CBC_PUSH_FALSE then
    let sel := parser_loop_condition_branch last_cbc_opcode
    ([.set_continues_to_current_position, .compile_condition,
      .emit_cbc_backward_branch sel.1 start_offset,
      .set_breaks_to_current_position], sel.2)
  else
    ([.set_continues_to_current_position, .compile_condition,
      .set_breaks_to_current_position], none)

/-- `parser_parse_while_statement_end` after the frame pops: patch the skip
branch and the continues, compile the saved condition range, emit the
backward branch with the selected opcode, patch the breaks. -/
def parser_parse_while_statement_end (last_cbc_opcode : Option cbc_opcode_t)
    (start_offset : Nat) : List loop_end_event_t × Option cbc_opcode_t :=
  let sel := parser_loop_condition_branch last_cbc_opcode
  ([.set_branch_to_current_position, .set_continues_to_current_position,
    .compile_condition, .emit_cbc_backward_branch sel.1 start_offset,
    .set_breaks_to_current_position], sel.2)

/-- `parser_parse_for_statement_end` after the frame pops: patch continues,
compile the update expression (when non-empty), patch the skip branch,
compile the condition (when non-empty) and select the branch opcode from its
last opcode, or fall back to `CBC_JUMP_BACKWARD` for an empty condition;
emit the backward branch and patch the breaks. -/
def parser_parse_for_statement_end (has_update has_condition : Bool)
    (last_cbc_opcode : Option cbc_opcode_t) (start_offset : Nat) :
    List loop_end_event_t × Option cbc_opcode_t :=
  let update_events : List loop_end_event_t :=
    if has_update then [.compile_update_expression] else []
  if has_condition then
    let sel := parser_loop_condition_branch last_cbc_opcode
    ([.set_continues_to_current_position] ++ update_events ++
     [.set_branch_to_current_position, .compile_condition,
      .emit_cbc_backward_branch sel.1 start_offset,
      .set_breaks_to_current_position], sel.2)
  else
    ([.set_continues_to_current_position] ++ update_events ++
     [.set_branch_to_current_position,
      .emit_cbc_backward_branch .CBC_JUMP_BACKWARD start_offset,
      .set_breaks_to_current_position], last_cbc_opcode)

/-- The backward branches contained in an event trace. -/
def backward_branches (events : List loop_end_event_t) : List (cbc_opcode_t × Nat) :=
  events.filterMap fun e =>
    match e with
    | .emit_cbc_backward_branch op off => some (op, off)
    | _ => none

/-! ## C9: the never-executed for-in initialiser

`parser_emit_cbc_forward_branch` reserves the maximal operand width; the
branch records the byte-code position right after the emitted instruction,
and `parser_set_branch_to_current_position` patches the operand with the
(positive) distance to the current position.  Positions are byte-code sizes. -/

/-- Modelled from the spec: a forward branch instruction reserves a 1-byte
opcode plus up-to-3-byte displacement ("1–3-byte branch displacement"); the
emitter layer is external to these sources. -/
def forward_branch_instr_size : Nat := 4

inductive for_in_event_t
  | emit_cbc_forward_branch (op : cbc_opcode_t) (instr_pos : Nat)
  | compile_initializer (from_pos to_pos : Nat)
  | set_branch_to_current_position (instr_pos target : Nat)
  | emit_cbc_ext (op : cbc_ext_opcode_t)
  | emit_cbc_literal (op : cbc_opcode_t) (literal_index : Nat)
  deriving DecidableEq

/-- The `LEXER_KEYW_VAR` arm of `parser_parse_for_statement_start` for a
for-in statement (`for (var ident = initializer in expr)`): an unconditional
`CBC_JUMP_FORWARD` is emitted, the initializer expression is compiled
(occupying `initializer_size` bytes of code), the branch is patched to the
position right past the initializer, and then `CBC_EXT_FOR_IN_GET_NEXT` and
`CBC_ASSIGN_IDENT` follow.  `size0` is `byte_code_size` before the branch. -/
def parser_parse_for_in_var_statement (size0 literal_index : Nat)
    (has_assign : Bool) (initializer_size : Nat) : List for_in_event_t :=
  if has_assign then
    let after_branch := size0 + forward_branch_instr_size
    let after_init := after_branch + initializer_size
    [.emit_cbc_forward_branch .CBC_JUMP_FORWARD size0,
     .compile_initializer after_branch after_init,
     .set_branch_to_current_position size0 after_init,
     .emit_cbc_ext .CBC_EXT_FOR_IN_GET_NEXT,
     .emit_cbc_literal .CBC_ASSIGN_IDENT literal_index]
  else
    [.emit_cbc_ext .CBC_EXT_FOR_IN_GET_NEXT,
     .emit_cbc_literal .CBC_ASSIGN_IDENT literal_index]

/-! ## Statement stack frames (C4, C7)

The paged byte stack stores, per statement, a payload struct plus a one-byte
type tag; it is modelled as a list of tagged frames (top of stack first).
Payloads that hold no heap-allocated branch nodes (plain `parser_branch_t`
values, source ranges, start offsets) are omitted, because neither the
continue walk nor `parser_free_jumps` reads them. -/

structure parser_branch_node_t where
  offset : Nat
  deriving DecidableEq

inductive parser_statement_t
  | start
  | block
  | label (label_ident : Nat) (break_list : List parser_branch_node_t)
  | if_s
  | else_s
  | switch_s (case_branch_list loop_branch_list : List parser_branch_node_t)
  | switch_no_default (case_branch_list loop_branch_list : List parser_branch_node_t)
  | do_while (loop_branch_list : List parser_branch_node_t)
  | while_s (loop_branch_list : List parser_branch_node_t)
  | for_s (loop_branch_list : List parser_branch_node_t)
  | for_in (loop_branch_list : List parser_branch_node_t)
  | with_s
  | try_s
  deriving DecidableEq

def parser_statement_t.is_start : parser_statement_t → Bool
  | .start => true
  | _ => false

def parser_statement_t.is_label : parser_statement_t → Bool
  | .label _ _ => true
  | _ => false

/-- The four statement types `parser_parse_continue_statement` accepts as
continue targets (`PARSER_STATEMENT_DO_WHILE` … `PARSER_STATEMENT_FOR_IN`). -/
def parser_statement_t.is_continue_target : parser_statement_t → Bool
  | .do_while _ => true
  | .while_s _ => true
  | .for_s _ => true
  | .for_in _ => true
  | _ => false

def parser_statement_t.is_for_in : parser_statement_t → Bool
  | .for_in _ => true
  | _ => false

def parser_statement_t.is_with_or_try : parser_statement_t → Bool
  | .with_s => true
  | .try_s => true
  | _ => false

/-! ## C7: `parser_free_jumps` -/

/-- The branch nodes a single frame keeps alive: the break list of a label,
the case list plus the loop break/continue list of a switch, and the loop
list of the four loop statements. -/
def parser_statement_t.branch_nodes : parser_statement_t → List parser_branch_node_t
  | .label _ break_list => break_list
  | .switch_s case_list loop_list => case_list ++ loop_list
  | .switch_no_default case_list loop_list => case_list ++ loop_list
  | .do_while loop_list => loop_list
  | .while_s loop_list => loop_list
  | .for_s loop_list => loop_list
  | .for_in loop_list => loop_list
  | _ => []

/-- `parser_free_jumps`: walk the statement stack from the given iterator
position down to the `START` sentinel, freeing the pending branch nodes of
every label, switch and loop frame.  The returned list is the sequence of
freed nodes. -/
def parser_free_jumps : List parser_statement_t → List parser_branch_node_t
  | [] => []
  | frame :: rest =>
    match frame with
    | .start => []
    | .label _ break_list => break_list ++ parser_free_jumps rest
    | .switch_s case_list loop_list => (case_list ++ loop_list) ++ parser_free_jumps rest
    | .switch_no_default case_list loop_list => (case_list ++ loop_list) ++ parser_free_jumps rest
    | .do_while loop_list => loop_list ++ parser_free_jumps rest
    | .while_s loop_list => loop_list ++ parser_free_jumps rest
    | .for_s loop_list => loop_list ++ parser_free_jumps rest
    | .for_in loop_list => loop_list ++ parser_free_jumps rest
    | _ => parser_free_jumps rest

/-- Specification-side description of the nodes still pending on the stack
above the `START` sentinel. -/
def pending_branch_nodes (stack : List parser_statement_t) : List parser_branch_node_t :=
  ((stack.takeWhile fun f => ¬ f.is_start).map parser_statement_t.branch_nodes).flatten

/-! ## C4: `parser_parse_continue_statement` with a label

The walk keeps `loop_iterator` pointing at the most recently crossed loop
frame (`none` when the frame just below the current one is not a loop or a
label of one); identifiers are interned, so label names are `Nat`.  On
success the branch node is filed into the loop `loop_iterator` points at and
its offset is marked with `CBC_HIGHEST_BIT_MASK` (the continue marker);
the result records that loop's distance from the stack top together with the
opcode of the emitted forward branch. -/

def parser_parse_continue_statement_walk (name : Nat) (opcode : cbc_opcode_t)
    (for_in_was_seen : Bool) (loop_iterator : Option Nat) (idx : Nat) :
    List parser_statement_t → Except parser_error_t (Nat × cbc_opcode_t)
  | [] => .error .PARSER_ERR_INVALID_CONTINUE_LABEL
  | frame :: rest =>
    match frame, loop_iterator with
    | .start, _ => .error .PARSER_ERR_INVALID_CONTINUE_LABEL
    | .label label_ident _, some j =>
      if label_ident = name then
        .ok (j, opcode)
      else
        parser_parse_continue_statement_walk name opcode for_in_was_seen (some j) (idx + 1) rest
    | frame, _ =>
      let opcode' :=
        if frame.is_with_or_try ∨ for_in_was_seen then
          cbc_opcode_t.CBC_JUMP_FORWARD_EXIT_CONTEXT
        else
          opcode
      let for_in_was_seen' :=
        if frame.is_with_or_try ∨ for_in_was_seen then for_in_was_seen
        else if frame.is_for_in then true
        else for_in_was_seen
      let loop_iterator' := if frame.is_continue_target then some idx else none
      parser_parse_continue_statement_walk name opcode' for_in_was_seen' loop_iterator' (idx + 1) rest

/-- Entry point of the labelled-continue walk: starts with
`opcode = CBC_JUMP_FORWARD`, no for-in seen and no loop iterator. -/
def parser_parse_continue_statement_labeled (name : Nat)
    (stack : List parser_statement_t) : Except parser_error_t (Nat × cbc_opcode_t) :=
  parser_parse_continue_statement_walk name .CBC_JUMP_FORWARD false none 0 stack

/-- The claim's criterion, literally: some `LABEL` frame named `name` sits on
the statement stack directly above (immediately outward of) a `DO_WHILE`,
`WHILE`, `FOR` or `FOR_IN` frame, with no `START` sentinel crossed first. -/
def label_directly_above_loop (name : Nat) (stack : List parser_statement_t) : Bool :=
  (List.range stack.length).any fun i =>
    (stack.getD i .start).is_continue_target &&
    (match stack.getD (i + 1) .start with
     | .label label_ident _ => label_ident = name
     | _ => false) &&
    (stack.take i).all fun f => ¬ f.is_start

/-- A run of consecutive `LABEL` frames at the head of the list containing
one named `name`. -/
def label_chain_hit (name : Nat) : List parser_statement_t → Bool
  | .label label_ident _ :: rest => label_ident = name || label_chain_hit name rest
  | _ => false

/-- The amended criterion: before any `START` sentinel there is a loop frame
whose outward neighbours form a run of `LABEL` frames containing one named
`name` (i.e. the label is separated from the loop only by other labels). -/
def continue_label_resolvable (name : Nat) : List parser_statement_t → Bool
  | [] => false
  | frame :: rest =>
    if frame.is_start then false
    else if frame.is_continue_target then
      label_chain_hit name rest || continue_label_resolvable name rest
    else continue_label_resolvable name rest

/-! ## Lexer token model (C2, C5, C6)

Tokens are what the (external) lexer hands to the parser; the token stream is
a current token plus the list of tokens still to be read.
`lexer_next_token` past the end of the stream yields `LEXER_EOS`. -/

inductive lexer_token_type_t
  | LEXER_EOS
  | LEXER_LITERAL
  | LEXER_KEYW_NEW
  | LEXER_KEYW_FUNCTION
  | LEXER_KEYW_THIS
  | LEXER_LIT_TRUE
  | LEXER_LIT_FALSE
  | LEXER_LIT_NULL
  | LEXER_DIVIDE
  | LEXER_ASSIGN_DIVIDE
  | LEXER_LEFT_PAREN
  | LEXER_RIGHT_PAREN
  | LEXER_LEFT_SQUARE
  | LEXER_RIGHT_SQUARE
  | LEXER_LEFT_BRACE
  | LEXER_RIGHT_BRACE
  | LEXER_COMMA
  | LEXER_SEMICOLON
  | LEXER_COLON
  | LEXER_DOT
  | LEXER_QUESTION_MARK
  | LEXER_INCREASE
  | LEXER_DECREASE
  | LEXER_ADD
  | LEXER_SUBTRACT
  | LEXER_MULTIPLY
  | LEXER_MODULO
  | LEXER_EQUAL
  | LEXER_LESS
  | LEXER_GREATER
  | LEXER_ASSIGN
  | LEXER_LOGICAL_NOT
  | LEXER_BIT_NOT
  | LEXER_KEYW_TYPEOF
  | LEXER_KEYW_VOID
  | LEXER_KEYW_DELETE
  | LEXER_KEYW_IF
  | LEXER_KEYW_ELSE
  | LEXER_KEYW_DO
  | LEXER_KEYW_WHILE
  | LEXER_KEYW_FOR
  | LEXER_KEYW_WITH
  | LEXER_KEYW_SWITCH
  | LEXER_KEYW_CASE
  | LEXER_KEYW_DEFAULT
  | LEXER_KEYW_TRY
  | LEXER_KEYW_CATCH
  | LEXER_KEYW_FINALLY
  | LEXER_KEYW_BREAK
  | LEXER_KEYW_CONTINUE
  | LEXER_KEYW_RETURN
  | LEXER_KEYW_THROW
  | LEXER_KEYW_VAR
  | LEXER_KEYW_DEBUGGER
  | LEXER_KEYW_IN
  | LEXER_PROPERTY_GETTER
  | LEXER_PROPERTY_SETTER
  | LEXER_SCAN_SWITCH
  | LEXER_EXPRESSION_START
  deriving DecidableEq

inductive lexer_literal_type_t
  | LEXER_IDENT_LITERAL
  | LEXER_STRING_LITERAL
  | LEXER_NUMBER_LITERAL
  deriving DecidableEq

structure lexer_lit_location_t where
  lit_type : lexer_literal_type_t := .LEXER_IDENT_LITERAL
  length : Nat := 0
  has_escape : Bool := false
  chars : String := ""
  deriving DecidableEq

structure lexer_token_t where
  type : lexer_token_type_t
  was_newline : Bool := false
  lit_location : lexer_lit_location_t := {}
  literal_is_reserved : Bool := false
  lit_index : Nat := 0
  deriving DecidableEq

/-- The token produced when the source is exhausted. -/
def lexer_eos_token : lexer_token_t := { type := .LEXER_EOS }

/-- The token stream: the current token plus the unread tail. -/
structure lexer_state_t where
  current : lexer_token_t
  rest : List lexer_token_t
  deriving DecidableEq

def lexer_next_token (lx : lexer_state_t) : lexer_state_t :=
  match lx.rest with
  | [] => { current := lexer_eos_token, rest := [] }
  | t :: ts => { current := t, rest := ts }

/-- Modelled from the spec: `LEXER_IS_BINARY_OP_TOKEN` (js-lexer.h is not
among the sources) recognizes the binary-operator token group, which
includes the arithmetic, comparison and assignment operators and `in`. -/
def LEXER_IS_BINARY_OP_TOKEN (t : lexer_token_type_t) : Bool :=
  t = .LEXER_ASSIGN ∨ t = .LEXER_ADD ∨ t = .LEXER_SUBTRACT ∨ t = .LEXER_MULTIPLY ∨
  t = .LEXER_DIVIDE ∨ t = .LEXER_ASSIGN_DIVIDE ∨ t = .LEXER_MODULO ∨
  t = .LEXER_EQUAL ∨ t = .LEXER_LESS ∨ t = .LEXER_GREATER ∨ t = .LEXER_KEYW_IN

/-- Modelled from the spec: `LEXER_IS_UNARY_OP_TOKEN` (js-lexer.h is not
among the sources) recognizes the unary-operator token group. -/
def LEXER_IS_UNARY_OP_TOKEN (t : lexer_token_type_t) : Bool :=
  t = .LEXER_LOGICAL_NOT ∨ t = .LEXER_BIT_NOT ∨ t = .LEXER_KEYW_TYPEOF ∨
  t = .LEXER_KEYW_VOID ∨ t = .LEXER_KEYW_DELETE ∨ t = .LEXER_INCREASE ∨ t = .LEXER_DECREASE

/-! ## C2: `parser_parse_try_statement_end` -/

inductive parser_try_block_type_t
  | parser_try_block
  | parser_catch_block
  | parser_finally_block
  deriving DecidableEq

inductive try_end_event_t
  | parser_flush_cbc
  | emit_cbc (op : cbc_opcode_t)
  | set_branch_to_current_position
  | emit_cbc_ext_forward_branch (op : cbc_ext_opcode_t)
  | emit_cbc_literal (op : cbc_opcode_t) (literal_index : Nat)
  deriving DecidableEq

inductive try_end_result_t
  | popped
  | updated (type : parser_try_block_type_t)
  deriving DecidableEq

/-- `parser_parse_try_statement_end`, entered on the `}` that closed the
current block of a try statement (`lx.current` is that `}`).  Returns the
emitter actions performed and either `popped` (the whole frame is popped) or
`updated ty` (the frame is written back with block type `ty`). -/
def parser_parse_try_statement_end (type : parser_try_block_type_t)
    (lx : lexer_state_t) :
    Except parser_error_t (List try_end_event_t × try_end_result_t) :=
  let lx := lexer_next_token lx
  let tok := lx.current
  let phase1 : Except parser_error_t (List try_end_event_t × parser_try_block_type_t) :=
    if type = .parser_finally_block then
      .ok ([.parser_flush_cbc, .emit_cbc .CBC_CONTEXT_END,
            .set_branch_to_current_position], .parser_finally_block)
    else if type = .parser_catch_block then
      if tok.type ≠ .LEXER_KEYW_FINALLY then
        .ok ([.set_branch_to_current_position, .parser_flush_cbc,
              .emit_cbc .CBC_CONTEXT_END, .parser_flush_cbc], .parser_finally_block)
      else
        .ok ([.set_branch_to_current_position], .parser_catch_block)
    else
      if tok.type ≠ .LEXER_KEYW_CATCH ∧ tok.type ≠ .LEXER_KEYW_FINALLY then
        .error .PARSER_ERR_CATCH_FINALLY_EXPECTED
      else
        .ok ([.set_branch_to_current_position], .parser_try_block)
  match phase1 with
  | .error e => .error e
  | .ok (events, type1) =>
    if type1 = .parser_finally_block then
      .ok (events, .popped)
    else if tok.type = .LEXER_KEYW_CATCH then
      let lx := lexer_next_token lx
      if lx.current.type ≠ .LEXER_LEFT_PAREN then
        .error .PARSER_ERR_LEFT_PAREN_EXPECTED
      else
        -- lexer_expect_identifier; modelled from the spec: reads the next
        -- token and raises unless it is an identifier literal
        let lx := lexer_next_token lx
        if ¬ (lx.current.type = .LEXER_LITERAL ∧
              lx.current.lit_location.lit_type = .LEXER_IDENT_LITERAL) then
          .error .PARSER_ERR_IDENTIFIER_EXPECTED
        else
          let literal_index := lx.current.lit_index
          let lx := lexer_next_token lx
          if lx.current.type ≠ .LEXER_RIGHT_PAREN then
            .error .PARSER_ERR_RIGHT_PAREN_EXPECTED
          else
            let lx := lexer_next_token lx
            if lx.current.type ≠ .LEXER_LEFT_BRACE then
              .error .PARSER_ERR_LEFT_BRACE_EXPECTED
            else
              .ok (events ++ [.emit_cbc_ext_forward_branch .CBC_EXT_CATCH,
                              .emit_cbc_literal .CBC_ASSIGN_IDENT literal_index,
                              .parser_flush_cbc], .updated .parser_catch_block)
    else
      -- PARSER_ASSERT (token is LEXER_KEYW_FINALLY)
      let lx := lexer_next_token lx
      if lx.current.type ≠ .LEXER_LEFT_BRACE then
        .error .PARSER_ERR_LEFT_BRACE_EXPECTED
      else
        .ok (events ++ [.emit_cbc_ext_forward_branch .CBC_EXT_FINALLY],
             .updated .parser_finally_block)

/-! ## C6: the directive prologue of `parser_parse_statements` -/

def PARSER_USE_STRICT_LITERAL : String := "use strict"

def PARSER_USE_STRICT_LENGTH : Nat := 10

/-- The strict-directive test of `parser_parse_statements`:
`lit_location.length == PARSER_USE_STRICT_LENGTH && !lit_location.has_escape
&& memcmp (PARSER_USE_STRICT_LITERAL, lit_location.char_p,
PARSER_USE_STRICT_LENGTH) == 0`. -/
def parser_use_strict_check (lit : lexer_lit_location_t) : Bool :=
  lit.length = PARSER_USE_STRICT_LENGTH ∧ ¬ lit.has_escape ∧
  lit.chars = PARSER_USE_STRICT_LITERAL

/-- Status flags of the parser context relevant to the prologue. -/
structure parser_status_flags_t where
  is_strict : Bool := false
  is_function : Bool := false
  has_non_strict_arg : Bool := false
  deriving DecidableEq

structure prologue_result_t where
  status_flags : parser_status_flags_t
  lexer : lexer_state_t
  emitted : List (cbc_opcode_t × lexer_lit_location_t)
  pending_expression : Option lexer_token_type_t := none
  deriving DecidableEq

/-- The directive-prologue loop at the top of `parser_parse_statements`
(the `while` over string-literal tokens).  The head of the argument list is
the current token.  A string literal followed by a token that can only
continue an expression (no preceding newline, a binary operator, `(`, `[`
or `.`) is re-injected: `CBC_PUSH_LITERAL` is emitted, the follow-up token
type is saved and the current token becomes `LEXER_EXPRESSION_START`.
Otherwise the literal is a directive: the use-strict test may set
`PARSER_IS_STRICT`, a reserved identifier right after switching to strict
mode raises, a `;` is consumed, and the loop continues. -/
def parser_parse_statements_prologue (status_flags : parser_status_flags_t) :
    List lexer_token_t → Except parser_error_t prologue_result_t
  | [] =>
    .ok { status_flags, lexer := { current := lexer_eos_token, rest := [] }, emitted := [] }
  | cur :: rest =>
    if cur.type = .LEXER_LITERAL ∧ cur.lit_location.lit_type = .LEXER_STRING_LITERAL then
      match rest with
      | [] =>
        -- lexer_next_token past the end yields LEXER_EOS with a cleared
        -- newline flag: it is neither ; nor } and !was_newline holds, so this
        -- branch of the source re-injects the saved literal
        .ok { status_flags,
              lexer := { current := { lexer_eos_token with type := .LEXER_EXPRESSION_START },
                         rest := [] },
              emitted := [(.CBC_PUSH_LITERAL, cur.lit_location)],
              pending_expression := some lexer_eos_token.type }
      | tok :: rest2 =>
        if (tok.type ≠ .LEXER_SEMICOLON ∧ tok.type ≠ .LEXER_RIGHT_BRACE) ∧
           (¬ tok.was_newline ∨ LEXER_IS_BINARY_OP_TOKEN tok.type ∨
            tok.type = .LEXER_LEFT_PAREN ∨ tok.type = .LEXER_LEFT_SQUARE ∨
            tok.type = .LEXER_DOT) then
          .ok { status_flags,
                lexer := { current := { tok with type := .LEXER_EXPRESSION_START },
                           rest := rest2 },
                emitted := [(.CBC_PUSH_LITERAL, cur.lit_location)],
                pending_expression := some tok.type }
        else
          if parser_use_strict_check cur.lit_location ∧ tok.type = .LEXER_LITERAL ∧
             tok.lit_location.lit_type = .LEXER_IDENT_LITERAL ∧
             tok.literal_is_reserved then
            .error .PARSER_ERR_STRICT_IDENT_NOT_ALLOWED
          else if tok.type = .LEXER_SEMICOLON then
            parser_parse_statements_prologue
              (if parser_use_strict_check cur.lit_location then
                { status_flags with is_strict := true }
               else status_flags) rest2
          else
            parser_parse_statements_prologue
              (if parser_use_strict_check cur.lit_location then
                { status_flags with is_strict := true }
               else status_flags) (tok :: rest2)
    else
      .ok { status_flags, lexer := { current := cur, rest := rest }, emitted := [] }

/-- The claim's criterion for a single literal: exactly ten bytes, no escape
sequences, bytes equal to `"use strict"`. -/
def lit_is_use_strict_directive (lit : lexer_lit_location_t) : Bool :=
  lit.length = 10 ∧ ¬ lit.has_escape ∧ lit.chars = "use strict"

/-- Specification-side predicate: the directive prologue of the token stream
contains a qualifying `"use strict"` directive (a bare string literal that is
not re-injected as an expression). -/
def directive_prologue_sets_strict : List lexer_token_t → Bool
  | [] => false
  | cur :: rest =>
    if cur.type = .LEXER_LITERAL ∧ cur.lit_location.lit_type = .LEXER_STRING_LITERAL then
      match rest with
      | [] => false
      | tok :: rest2 =>
        if (tok.type ≠ .LEXER_SEMICOLON ∧ tok.type ≠ .LEXER_RIGHT_BRACE) ∧
           (¬ tok.was_newline ∨ LEXER_IS_BINARY_OP_TOKEN tok.type ∨
            tok.type = .LEXER_LEFT_PAREN ∨ tok.type = .LEXER_LEFT_SQUARE ∨
            tok.type = .LEXER_DOT) then
          false
        else
          lit_is_use_strict_directive cur.lit_location ||
          (if tok.type = .LEXER_SEMICOLON then directive_prologue_sets_strict rest2
           else directive_prologue_sets_strict (tok :: rest2))
    else false

/-! ## C5: the pre-scanner `parser_scan_until` -/

inductive scan_modes_t
  | SCAN_MODE_PRIMARY_EXPRESSION
  | SCAN_MODE_PRIMARY_EXPRESSION_AFTER_NEW
  | SCAN_MODE_POST_PRIMARY_EXPRESSION
  | SCAN_MODE_PRIMARY_EXPRESSION_END
  | SCAN_MODE_STATEMENT
  | SCAN_MODE_FUNCTION_ARGUMENTS
  | SCAN_MODE_PROPERTY_NAME
  deriving DecidableEq

inductive scan_stack_modes_t
  | SCAN_STACK_HEAD
  | SCAN_STACK_PAREN_EXPRESSION
  | SCAN_STACK_PAREN_STATEMENT
  | SCAN_STACK_COLON_EXPRESSION
  | SCAN_STACK_COLON_STATEMENT
  | SCAN_STACK_SQUARE_BRACKETED_EXPRESSION
  | SCAN_STACK_OBJECT_LITERAL
  | SCAN_STACK_BLOCK_STATEMENT
  | SCAN_STACK_BLOCK_EXPRESSION
  | SCAN_STACK_BLOCK_PROPERTY
  deriving DecidableEq

structure scan_context_t where
  lexer : lexer_state_t
  stack : List scan_stack_modes_t
  deriving DecidableEq

def scan_context_t.push (c : scan_context_t) (m : scan_stack_modes_t) : scan_context_t :=
  { c with stack := m :: c.stack }

def scan_context_t.pop (c : scan_context_t) : scan_context_t :=
  { c with stack := c.stack.tail }

/-- `stack_top_uint8`; the stack is never empty while the scanner runs (its
own `SCAN_STACK_HEAD` is at the bottom), so the default is never read. -/
def scan_context_t.stack_top (c : scan_context_t) : scan_stack_modes_t :=
  c.stack.headD .SCAN_STACK_HEAD

def scan_context_t.next (c : scan_context_t) : scan_context_t :=
  { c with lexer := lexer_next_token c.lexer }

/-- `parser_scan_primary_expression`; the returned `Bool` is `PARSER_TRUE`
for continue.  `lexer_construct_regexp_object` is modelled from the spec as
consuming only regexp source characters (no further tokens);
`lexer_scan_identifier` is modelled from the spec as reading one token. -/
def parser_scan_primary_expression (c : scan_context_t) (type : lexer_token_type_t)
    (stack_top : scan_stack_modes_t) :
    Except parser_error_t (Bool × scan_context_t × scan_modes_t) :=
  match type with
  | .LEXER_KEYW_NEW =>
    .ok (false, c, .SCAN_MODE_PRIMARY_EXPRESSION_AFTER_NEW)
  | .LEXER_DIVIDE | .LEXER_ASSIGN_DIVIDE =>
    .ok (false, c, .SCAN_MODE_POST_PRIMARY_EXPRESSION)
  | .LEXER_KEYW_FUNCTION =>
    .ok (false, c.push .SCAN_STACK_BLOCK_EXPRESSION, .SCAN_MODE_FUNCTION_ARGUMENTS)
  | .LEXER_LEFT_PAREN =>
    .ok (false, c.push .SCAN_STACK_PAREN_EXPRESSION, .SCAN_MODE_PRIMARY_EXPRESSION)
  | .LEXER_LEFT_SQUARE =>
    .ok (false, c.push .SCAN_STACK_SQUARE_BRACKETED_EXPRESSION, .SCAN_MODE_PRIMARY_EXPRESSION)
  | .LEXER_LEFT_BRACE =>
    .ok (true, c.push .SCAN_STACK_OBJECT_LITERAL, .SCAN_MODE_PROPERTY_NAME)
  | .LEXER_LITERAL | .LEXER_KEYW_THIS | .LEXER_LIT_TRUE | .LEXER_LIT_FALSE | .LEXER_LIT_NULL =>
    .ok (false, c, .SCAN_MODE_POST_PRIMARY_EXPRESSION)
  | .LEXER_RIGHT_SQUARE =>
    if stack_top ≠ .SCAN_STACK_SQUARE_BRACKETED_EXPRESSION then
      .error .PARSER_ERR_PRIMARY_EXP_EXPECTED
    else
      .ok (false, c.pop, .SCAN_MODE_POST_PRIMARY_EXPRESSION)
  | .LEXER_COMMA =>
    if stack_top ≠ .SCAN_STACK_SQUARE_BRACKETED_EXPRESSION then
      .error .PARSER_ERR_PRIMARY_EXP_EXPECTED
    else
      .ok (false, c, .SCAN_MODE_PRIMARY_EXPRESSION)
  | .LEXER_RIGHT_PAREN =>
    if stack_top = .SCAN_STACK_PAREN_STATEMENT then
      .ok (false, c.pop, .SCAN_MODE_STATEMENT)
    else if stack_top ≠ .SCAN_STACK_PAREN_EXPRESSION then
      .error .PARSER_ERR_PRIMARY_EXP_EXPECTED
    else
      .ok (false, c.pop, .SCAN_MODE_POST_PRIMARY_EXPRESSION)
  | .LEXER_SEMICOLON =>
    -- needed by for (;;) statements
    if stack_top ≠ .SCAN_STACK_PAREN_STATEMENT then
      .error .PARSER_ERR_PRIMARY_EXP_EXPECTED
    else
      .ok (false, c, .SCAN_MODE_PRIMARY_EXPRESSION)
  | _ => .error .PARSER_ERR_PRIMARY_EXP_EXPECTED

/-- `parser_scan_post_primary_expression`; the returned `Bool` is
`PARSER_TRUE` for break, `PARSER_FALSE` for fall through to the
primary-expression-end handling.  The `LEXER_DOT` arm performs
`lexer_scan_identifier` (one token). -/
def parser_scan_post_primary_expression (c : scan_context_t)
    (type : lexer_token_type_t) : Bool × scan_context_t × Option scan_modes_t :=
  match type with
  | .LEXER_DOT => (true, c.next, none)
  | .LEXER_LEFT_PAREN =>
    (true, c.push .SCAN_STACK_PAREN_EXPRESSION, some .SCAN_MODE_PRIMARY_EXPRESSION)
  | .LEXER_LEFT_SQUARE =>
    (true, c.push .SCAN_STACK_SQUARE_BRACKETED_EXPRESSION, some .SCAN_MODE_PRIMARY_EXPRESSION)
  | .LEXER_INCREASE | .LEXER_DECREASE =>
    if ¬ c.lexer.current.was_newline then
      (true, c, some .SCAN_MODE_PRIMARY_EXPRESSION_END)
    else
      (false, c, none)
  | _ => (false, c, none)

/-- `parser_scan_primary_expression_end`; the returned `Bool` is
`PARSER_TRUE` for continue. -/
def parser_scan_primary_expression_end (c : scan_context_t)
    (type : lexer_token_type_t) (stack_top : scan_stack_modes_t)
    (end_type : lexer_token_type_t) :
    Except parser_error_t (Bool × scan_context_t × scan_modes_t) :=
  if type = .LEXER_QUESTION_MARK then
    .ok (false, c.push .SCAN_STACK_COLON_EXPRESSION, .SCAN_MODE_PRIMARY_EXPRESSION)
  else if type = .LEXER_COMMA then
    if stack_top = .SCAN_STACK_OBJECT_LITERAL then
      .ok (true, c, .SCAN_MODE_PROPERTY_NAME)
    else
      .ok (false, c, .SCAN_MODE_PRIMARY_EXPRESSION)
  else if type = .LEXER_COLON ∧
          (stack_top = .SCAN_STACK_COLON_EXPRESSION ∨
           stack_top = .SCAN_STACK_COLON_STATEMENT) then
    if stack_top = .SCAN_STACK_COLON_EXPRESSION then
      .ok (false, c.pop, .SCAN_MODE_PRIMARY_EXPRESSION)
    else
      .ok (false, c.pop, .SCAN_MODE_STATEMENT)
  else if LEXER_IS_BINARY_OP_TOKEN type ∨
          (type = .LEXER_SEMICOLON ∧ stack_top = .SCAN_STACK_PAREN_STATEMENT) then
    .ok (false, c, .SCAN_MODE_PRIMARY_EXPRESSION)
  else if (type = .LEXER_RIGHT_SQUARE ∧ stack_top = .SCAN_STACK_SQUARE_BRACKETED_EXPRESSION) ∨
          (type = .LEXER_RIGHT_PAREN ∧ stack_top = .SCAN_STACK_PAREN_EXPRESSION) ∨
          (type = .LEXER_RIGHT_BRACE ∧ stack_top = .SCAN_STACK_OBJECT_LITERAL) then
    .ok (false, c.pop, .SCAN_MODE_POST_PRIMARY_EXPRESSION)
  else if type = .LEXER_RIGHT_PAREN ∧ stack_top = .SCAN_STACK_PAREN_STATEMENT then
    .ok (false, c.pop, .SCAN_MODE_STATEMENT)
  else if stack_top ≠ .SCAN_STACK_BLOCK_STATEMENT ∧
          stack_top ≠ .SCAN_STACK_BLOCK_EXPRESSION ∧
          ¬ (stack_top = .SCAN_STACK_HEAD ∧ end_type = .LEXER_SCAN_SWITCH) then
    .error .PARSER_ERR_INVALID_EXPRESSION
  else if type = .LEXER_RIGHT_BRACE ∨ c.lexer.current.was_newline then
    .ok (true, c, .SCAN_MODE_STATEMENT)
  else if type ≠ .LEXER_SEMICOLON then
    .error .PARSER_ERR_INVALID_EXPRESSION
  else
    .ok (false, c, .SCAN_MODE_STATEMENT)

/-- The tail of `parser_scan_statement` reached by falling out of its
`switch` (identifier labels and expression statements). -/
def parser_scan_statement_tail (c : scan_context_t) (type : lexer_token_type_t) :
    Bool × scan_context_t × Option scan_modes_t :=
  if type = .LEXER_LITERAL ∧
     c.lexer.current.lit_location.lit_type = .LEXER_IDENT_LITERAL then
    let c := c.next
    if c.lexer.current.type = .LEXER_COLON then
      (false, c, some .SCAN_MODE_STATEMENT)
    else
      (true, c, some .SCAN_MODE_POST_PRIMARY_EXPRESSION)
  else
    (true, c, some .SCAN_MODE_PRIMARY_EXPRESSION)

/-- `parser_scan_statement`; the returned `Bool` is `PARSER_TRUE` for
continue. -/
def parser_scan_statement (c : scan_context_t) (type : lexer_token_type_t)
    (stack_top : scan_stack_modes_t) :
    Except parser_error_t (Bool × scan_context_t × Option scan_modes_t) :=
  match type with
  | .LEXER_SEMICOLON | .LEXER_KEYW_ELSE | .LEXER_KEYW_DO | .LEXER_KEYW_RETURN
  | .LEXER_KEYW_TRY | .LEXER_KEYW_FINALLY | .LEXER_KEYW_DEBUGGER =>
    .ok (false, c, none)
  | .LEXER_KEYW_IF | .LEXER_KEYW_WHILE | .LEXER_KEYW_WITH
  | .LEXER_KEYW_SWITCH | .LEXER_KEYW_CATCH =>
    let c := c.next
    if c.lexer.current.type ≠ .LEXER_LEFT_PAREN then
      .error .PARSER_ERR_LEFT_PAREN_EXPECTED
    else
      .ok (false, c.push .SCAN_STACK_PAREN_STATEMENT, some .SCAN_MODE_PRIMARY_EXPRESSION)
  | .LEXER_KEYW_FOR =>
    let c := c.next
    if c.lexer.current.type ≠ .LEXER_LEFT_PAREN then
      .error .PARSER_ERR_LEFT_PAREN_EXPECTED
    else
      let c := c.next
      let c := c.push .SCAN_STACK_PAREN_STATEMENT
      if c.lexer.current.type = .LEXER_KEYW_VAR then
        .ok (false, c, some .SCAN_MODE_PRIMARY_EXPRESSION)
      else
        .ok (true, c, some .SCAN_MODE_PRIMARY_EXPRESSION)
  | .LEXER_KEYW_VAR | .LEXER_KEYW_THROW =>
    .ok (false, c, some .SCAN_MODE_PRIMARY_EXPRESSION)
  | .LEXER_KEYW_BREAK | .LEXER_KEYW_CONTINUE =>
    let c := c.next
    if ¬ c.lexer.current.was_newline ∧ c.lexer.current.type = .LEXER_LITERAL ∧
       c.lexer.current.lit_location.lit_type = .LEXER_IDENT_LITERAL then
      .ok (false, c, none)
    else
      .ok (true, c, none)
  | .LEXER_KEYW_DEFAULT =>
    let c := c.next
    if c.lexer.current.type ≠ .LEXER_COLON then
      .error .PARSER_ERR_COLON_EXPECTED
    else
      .ok (false, c, none)
  | .LEXER_KEYW_CASE =>
    .ok (false, c.push .SCAN_STACK_COLON_STATEMENT, some .SCAN_MODE_PRIMARY_EXPRESSION)
  | .LEXER_RIGHT_BRACE =>
    if stack_top = .SCAN_STACK_BLOCK_STATEMENT ∨
       stack_top = .SCAN_STACK_BLOCK_EXPRESSION ∨
       stack_top = .SCAN_STACK_BLOCK_PROPERTY then
      let c := c.pop
      if stack_top = .SCAN_STACK_BLOCK_EXPRESSION then
        .ok (false, c, some .SCAN_MODE_POST_PRIMARY_EXPRESSION)
      else if stack_top = .SCAN_STACK_BLOCK_PROPERTY then
        let c := c.next
        if c.lexer.current.type ≠ .LEXER_COMMA ∧
           c.lexer.current.type ≠ .LEXER_RIGHT_BRACE then
          .error .PARSER_ERR_OBJECT_ITEM_SEPARATOR_EXPECTED
        else
          .ok (true, c, some .SCAN_MODE_POST_PRIMARY_EXPRESSION)
      else
        .ok (false, c, none)
    else
      .ok (parser_scan_statement_tail c type)
  | .LEXER_LEFT_BRACE =>
    .ok (false, c.push .SCAN_STACK_BLOCK_STATEMENT, none)
  | .LEXER_KEYW_FUNCTION =>
    .ok (false, c.push .SCAN_STACK_BLOCK_STATEMENT, some .SCAN_MODE_FUNCTION_ARGUMENTS)
  | _ =>
    .ok (parser_scan_statement_tail c type)

/-- The argument-list loop inside the `SCAN_MODE_FUNCTION_ARGUMENTS` case:
`ident (, ident)*`, stopping at the first non-comma after an identifier. -/
def parser_scan_fn_args_loop (cur : lexer_token_t) (rest : List lexer_token_t) :
    Except parser_error_t lexer_state_t :=
  if ¬ (cur.type = .LEXER_LITERAL ∧ cur.lit_location.lit_type = .LEXER_IDENT_LITERAL) then
    .error .PARSER_ERR_IDENTIFIER_EXPECTED
  else
    match rest with
    | [] => .ok { current := lexer_eos_token, rest := [] }
    | t :: ts =>
      if t.type ≠ .LEXER_COMMA then
        .ok { current := t, rest := ts }
      else
        match ts with
        | [] =>
          -- lexer_next_token yields LEXER_EOS, which fails the identifier
          -- check at the top of the loop
          .error .PARSER_ERR_IDENTIFIER_EXPECTED
        | u :: us => parser_scan_fn_args_loop u us

/-- The `SCAN_MODE_FUNCTION_ARGUMENTS` case body: optional function name,
`(`, the argument list, `)` and the opening `{` of the body. -/
def parser_scan_function_arguments (c : scan_context_t) :
    Except parser_error_t scan_context_t :=
  let lx :=
    if c.lexer.current.type = .LEXER_LITERAL ∧
       c.lexer.current.lit_location.lit_type = .LEXER_IDENT_LITERAL then
      lexer_next_token c.lexer
    else c.lexer
  if lx.current.type ≠ .LEXER_LEFT_PAREN then
    .error .PARSER_ERR_ARGUMENT_LIST_EXPECTED
  else
    let lx := lexer_next_token lx
    let args : Except parser_error_t lexer_state_t :=
      if lx.current.type ≠ .LEXER_RIGHT_PAREN then
        parser_scan_fn_args_loop lx.current lx.rest
      else
        .ok lx
    match args with
    | .error e => .error e
    | .ok lx =>
      if lx.current.type ≠ .LEXER_RIGHT_PAREN then
        .error .PARSER_ERR_RIGHT_PAREN_EXPECTED
      else
        let lx := lexer_next_token lx
        if lx.current.type ≠ .LEXER_LEFT_BRACE then
          .error .PARSER_ERR_LEFT_BRACE_EXPECTED
        else
          .ok { c with lexer := lx }

/-- One iteration of the `parser_scan_until` main loop either returns (with
the token and the stack as they are at the `return`), raises, or continues
with a new context and mode. -/
inductive scan_step_result_t
  | done (tok : lexer_token_t) (pre_stack : List scan_stack_modes_t)
  | raised (e : parser_error_t)
  | again (c : scan_context_t) (mode : scan_modes_t)
  deriving DecidableEq

/-- The bottom of the main loop: record the range end (positions are not
modelled) and read the next token. -/
def scan_bottom (c : scan_context_t) (mode : scan_modes_t) : scan_step_result_t :=
  .again c.next mode

def parser_scan_primary_dispatch (c : scan_context_t) (type : lexer_token_type_t)
    (stack_top : scan_stack_modes_t) : scan_step_result_t :=
  match parser_scan_primary_expression c type stack_top with
  | .error e => .raised e
  | .ok (true, c', m) => .again c' m
  | .ok (false, c', m) => scan_bottom c' m

def parser_scan_end_dispatch (c : scan_context_t) (type : lexer_token_type_t)
    (stack_top : scan_stack_modes_t) (end_type : lexer_token_type_t) :
    scan_step_result_t :=
  match parser_scan_primary_expression_end c type stack_top end_type with
  | .error e => .raised e
  | .ok (true, c', m) => .again c' m
  | .ok (false, c', m) => scan_bottom c' m

def parser_scan_post_dispatch (c : scan_context_t) (type : lexer_token_type_t)
    (stack_top : scan_stack_modes_t) (end_type : lexer_token_type_t)
    (mode : scan_modes_t) : scan_step_result_t :=
  match parser_scan_post_primary_expression c type with
  | (true, c', m) => scan_bottom c' (m.getD mode)
  | (false, c', _) => parser_scan_end_dispatch c' type stack_top end_type

def parser_scan_statement_dispatch (c : scan_context_t) (type : lexer_token_type_t)
    (stack_top : scan_stack_modes_t) (mode : scan_modes_t) : scan_step_result_t :=
  match parser_scan_statement c type stack_top with
  | .error e => .raised e
  | .ok (true, c', m) => .again c' (m.getD mode)
  | .ok (false, c', m) => scan_bottom c' (m.getD mode)

def parser_scan_function_arguments_dispatch (c : scan_context_t) : scan_step_result_t :=
  match parser_scan_function_arguments c with
  | .error e => .raised e
  | .ok c' => scan_bottom c' .SCAN_MODE_STATEMENT

/-- The `SCAN_MODE_PROPERTY_NAME` case body: `lexer_scan_identifier` (one
token), then `}` closes the object literal, getter/setter opens a property
function, otherwise a `:` must follow the property name. -/
def parser_scan_property_name_dispatch (c : scan_context_t) : scan_step_result_t :=
  let c := c.next
  if c.lexer.current.type = .LEXER_RIGHT_BRACE then
    scan_bottom c.pop .SCAN_MODE_POST_PRIMARY_EXPRESSION
  else if c.lexer.current.type = .LEXER_PROPERTY_GETTER ∨
          c.lexer.current.type = .LEXER_PROPERTY_SETTER then
    scan_bottom (c.push .SCAN_STACK_BLOCK_PROPERTY) .SCAN_MODE_FUNCTION_ARGUMENTS
  else
    let c := c.next
    if c.lexer.current.type ≠ .LEXER_COLON then
      .raised .PARSER_ERR_COLON_EXPECTED
    else
      scan_bottom c .SCAN_MODE_PRIMARY_EXPRESSION

/-- One iteration of the `while (PARSER_TRUE)` loop of `parser_scan_until`:
the `LEXER_EOS` check, the head-of-stack termination check, then the mode
dispatch (with the `SCAN_MODE_STATEMENT` switch-scan termination). -/
def parser_scan_until_step (end_type end_type_b : lexer_token_type_t)
    (c : scan_context_t) (mode : scan_modes_t) : scan_step_result_t :=
  let type := c.lexer.current.type
  let stack_top := c.stack_top
  if type = .LEXER_EOS then
    .raised .PARSER_ERR_EXPRESSION_EXPECTED
  else if stack_top = .SCAN_STACK_HEAD ∧ (type = end_type ∨ type = end_type_b) then
    .done c.lexer.current c.stack
  else
    match mode with
    | .SCAN_MODE_PRIMARY_EXPRESSION =>
      if type = .LEXER_ADD ∨ type = .LEXER_SUBTRACT ∨ LEXER_IS_UNARY_OP_TOKEN type then
        scan_bottom c mode
      else
        parser_scan_primary_dispatch c type stack_top
    | .SCAN_MODE_PRIMARY_EXPRESSION_AFTER_NEW =>
      parser_scan_primary_dispatch c type stack_top
    | .SCAN_MODE_POST_PRIMARY_EXPRESSION =>
      parser_scan_post_dispatch c type stack_top end_type mode
    | .SCAN_MODE_PRIMARY_EXPRESSION_END =>
      parser_scan_end_dispatch c type stack_top end_type
    | .SCAN_MODE_STATEMENT =>
      if end_type = .LEXER_SCAN_SWITCH ∧ stack_top = .SCAN_STACK_HEAD ∧
         (type = .LEXER_KEYW_DEFAULT ∨ type = .LEXER_KEYW_CASE ∨
          type = .LEXER_RIGHT_BRACE) then
        .done c.lexer.current c.stack
      else
        parser_scan_statement_dispatch c type stack_top mode
    | .SCAN_MODE_FUNCTION_ARGUMENTS =>
      parser_scan_function_arguments_dispatch c
    | .SCAN_MODE_PROPERTY_NAME =>
      parser_scan_property_name_dispatch c

inductive scan_outcome_t
  | returned (tok : lexer_token_t) (pre_stack : List scan_stack_modes_t)
  | raised (e : parser_error_t)
  | out_of_fuel
  deriving DecidableEq

/-- The scanner main loop, driven by explicit fuel (the C loop consumes the
finite token stream). -/
def parser_scan_until_run (fuel : Nat) (end_type end_type_b : lexer_token_type_t)
    (c : scan_context_t) (mode : scan_modes_t) : scan_outcome_t :=
  match fuel with
  | 0 => .out_of_fuel
  | fuel + 1 =>
    match parser_scan_until_step end_type end_type_b c mode with
    | .done tok pre_stack => .returned tok pre_stack
    | .raised e => .raised e
    | .again c' mode' => parser_scan_until_run fuel end_type end_type_b c' mode'

/-- `parser_scan_until`: the `end_type` normalization (`KEYW_CASE` becomes a
switch scan in statement mode without reading a token; `KEYW_IN` gets
`SEMICOLON` as alternate and skips a leading `var`), the `SCAN_STACK_HEAD`
push, then the main loop. -/
def parser_scan_until (fuel : Nat) (lexer : lexer_state_t)
    (end_type : lexer_token_type_t) : scan_outcome_t :=
  if end_type = .LEXER_KEYW_CASE then
    parser_scan_until_run fuel .LEXER_SCAN_SWITCH .LEXER_SCAN_SWITCH
      { lexer := lexer, stack := [.SCAN_STACK_HEAD] } .SCAN_MODE_STATEMENT
  else
    let lexer := lexer_next_token lexer
    if end_type = .LEXER_KEYW_IN then
      let lexer :=
        if lexer.current.type = .LEXER_KEYW_VAR then lexer_next_token lexer else lexer
      parser_scan_until_run fuel end_type .LEXER_SEMICOLON
        { lexer := lexer, stack := [.SCAN_STACK_HEAD] } .SCAN_MODE_PRIMARY_EXPRESSION
    else
      parser_scan_until_run fuel end_type end_type
        { lexer := lexer, stack := [.SCAN_STACK_HEAD] } .SCAN_MODE_PRIMARY_EXPRESSION

/-- The token condition of the claim, after normalization: the returned token
equals `end_type` or the normalized `end_type_b`. -/
def scan_until_claimed_end_token (end_type : lexer_token_type_t)
    (t : lexer_token_type_t) : Prop :=
  let end_a := if end_type = .LEXER_KEYW_CASE then .LEXER_SCAN_SWITCH else end_type
  let end_b :=
    if end_type = .LEXER_KEYW_CASE then .LEXER_SCAN_SWITCH
    else if end_type = .LEXER_KEYW_IN then .LEXER_SEMICOLON
    else end_type
  t = end_a ∨ t = end_b

/-! ## Remaining auxiliary definitions -/

def except_is_ok {ε α : Type} : Except ε α → Bool
  | .ok _ => true
  | .error _ => false

/-- The amended criterion for C4 as a proposition over stack decompositions:
there is a loop frame, not preceded by the `START` sentinel, that is
separated from a `LABEL` frame named `name` only by other `LABEL` frames. -/
def continue_label_targets_loop (name : Nat) (stack : List parser_statement_t) : Prop :=
  ∃ (pre : List parser_statement_t) (f : parser_statement_t)
    (mid : List parser_statement_t) (bl : List parser_branch_node_t)
    (suf : List parser_statement_t),
    stack = pre ++ f :: (mid ++ .label name bl :: suf) ∧
    f.is_continue_target = true ∧
    (∀ g ∈ pre, g.is_start = false) ∧
    (∀ g ∈ mid, g.is_label = true)

/-! # Theorems -/

/-! ## C1 -/

/-- Auxiliary: for any values of the two constants with
`full_flag ≠ small_enc`, the C condition `status_flags & (full_flag ==
small_enc)` is identically zero, so the else branch is always taken. -/
theorem vm_loop_prepare_encoding_gen_const (full_flag small_enc status_flags : Nat)
    (h : full_flag ≠ small_enc) :
    vm_loop_prepare_encoding_gen full_flag small_enc status_flags = (128, 0x8000) := by
  simp [vm_loop_prepare_encoding_gen, c_int_eq, h]

/-- C1: the claim says the literal-index decoding parameters of `vm_loop` are
selected from the header's status flags (small encoding: limit 255, delta
0xfe01; full encoding: limit 128, delta 0x8000, via the test
`(status_flags & CBC_CODE_FLAGS_FULL_LITERAL_ENCODING) ==
cbc_literal_encoding_small`).  Because `==` binds tighter than `&` in C, the
code instead computes `status_flags & 0`, so it selects limit 128 and delta
0x8000 for every header, in particular for a small-encoded header
(`status_flags = 0`), where the claimed selection yields 255/0xfe01. -/
theorem vm_loop_prepare_encoding_ignores_status_flags :
    vm_loop_prepare_encoding 0 = (128, 0x8000) ∧
    vm_loop_prepare_encoding_as_claimed 0 = (255, 0xfe01) ∧
    ∀ status_flags, vm_loop_prepare_encoding status_flags = (128, 0x8000) := by
  refine ⟨by decide, by decide, fun status_flags => ?_⟩
  exact vm_loop_prepare_encoding_gen_const _ _ status_flags (by decide)

/-! ## C10 -/

/-- C10: `vm_op_add` returns the undefined simple value whenever the two
operands have different ecma type fields; for equal type fields it returns
`lhs` unchanged when `lhs` is undefined or null, undefined when `lhs` is a
boolean, a string or an object, and it returns a number value equal to the
sum exactly when both operands are numbers. -/
theorem vm_op_add_cases (lhs rhs : ecma_value_t) :
    (ecma_get_value_type_field lhs ≠ ecma_get_value_type_field rhs →
      vm_op_add lhs rhs = some (.simple .ECMA_SIMPLE_VALUE_UNDEFINED)) ∧
    (ecma_get_value_type_field lhs = ecma_get_value_type_field rhs →
      (lhs = .simple .ECMA_SIMPLE_VALUE_UNDEFINED → vm_op_add lhs rhs = some lhs) ∧
      (lhs = .simple .ECMA_SIMPLE_VALUE_NULL → vm_op_add lhs rhs = some lhs) ∧
      (ecma_is_value_boolean lhs = true →
        vm_op_add lhs rhs = some (.simple .ECMA_SIMPLE_VALUE_UNDEFINED)) ∧
      (ecma_is_value_string lhs = true →
        vm_op_add lhs rhs = some (.simple .ECMA_SIMPLE_VALUE_UNDEFINED)) ∧
      (ecma_is_value_object lhs = true →
        vm_op_add lhs rhs = some (.simple .ECMA_SIMPLE_VALUE_UNDEFINED))) ∧
    (∀ n : Int, vm_op_add lhs rhs = some (.number n) ↔
      ∃ a b : Int, lhs = .number a ∧ rhs = .number b ∧ n = a + b) := by
  rcases lhs with v | a | s | o <;> rcases rhs with w | b | t | p <;>
    (try rcases v with _ | _ | _ | _ | _) <;>
    simp_all [vm_op_add, ecma_get_value_type_field, ecma_is_value_undefined,
      ecma_is_value_null, ecma_is_value_boolean, ecma_is_value_number,
      ecma_is_value_string, ecma_is_value_object, ecma_get_number_from_value,
      ecma_make_simple_value]
  exact fun n => ⟨fun h => h.symm, fun h => h.symm⟩

/-- Witness for C10: a concrete type-mismatch case and a concrete
number-number case. -/
theorem vm_op_add_cases_witness :
    vm_op_add (.number 2) (.simple .ECMA_SIMPLE_VALUE_UNDEFINED) =
      some (.simple .ECMA_SIMPLE_VALUE_UNDEFINED) ∧
    vm_op_add (.number 2) (.number 3) = some (.number 5) :=
  ⟨(vm_op_add_cases (.number 2) (.simple .ECMA_SIMPLE_VALUE_UNDEFINED)).1 (by decide),
   ((vm_op_add_cases (.number 2) (.number 3)).2.2 5).mpr ⟨2, 3, rfl, rfl, rfl⟩⟩

/-! ## C3 -/

/-- C3: for while, C-style for (with a condition) and do-while (whose
condition did not fold to `CBC_PUSH_FALSE`), the backward branch emitted
after the deferred condition is `CBC_BRANCH_IF_TRUE_BACKWARD`, downgraded
to `CBC_JUMP_BACKWARD` when the condition's last pending opcode is
`CBC_PUSH_TRUE` and to `CBC_BRANCH_IF_FALSE_BACKWARD` when it is
`CBC_LOGICAL_NOT`; in both downgrade cases the pending opcode is elided
(the cache is cleared). -/
theorem loop_backward_branch_opcode_selection (last : Option cbc_opcode_t)
    (has_update : Bool) (off : Nat) :
    (last ≠ some .CBC_PUSH_TRUE → last ≠ some .CBC_LOGICAL_NOT →
      backward_branches (parser_parse_while_statement_end last off).1 =
        [(.CBC_BRANCH_IF_TRUE_BACKWARD, off)] ∧
      backward_branches (parser_parse_for_statement_end has_update true last off).1 =
        [(.CBC_BRANCH_IF_TRUE_BACKWARD, off)] ∧
      (last ≠ some .CBC_PUSH_FALSE →
        backward_branches (parser_parse_do_while_statement_end last off).1 =
          [(.CBC_BRANCH_IF_TRUE_BACKWARD, off)])) ∧
    (last = some .CBC_PUSH_TRUE →
      backward_branches (parser_parse_while_statement_end last off).1 =
        [(.CBC_JUMP_BACKWARD, off)] ∧
      backward_branches (parser_parse_for_statement_end has_update true last off).1 =
        [(.CBC_JUMP_BACKWARD, off)] ∧
      backward_branches (parser_parse_do_while_statement_end last off).1 =
        [(.CBC_JUMP_BACKWARD, off)] ∧
      (parser_parse_while_statement_end last off).2 = none ∧
      (parser_parse_for_statement_end has_update true last off).2 = none ∧
      (parser_parse_do_while_statement_end last off).2 = none) ∧
    (last = some .CBC_LOGICAL_NOT →
      backward_branches (parser_parse_while_statement_end last off).1 =
        [(.CBC_BRANCH_IF_FALSE_BACKWARD, off)] ∧
      backward_branches (parser_parse_for_statement_end has_update true last off).1 =
        [(.CBC_BRANCH_IF_FALSE_BACKWARD, off)] ∧
      backward_branches (parser_parse_do_while_statement_end last off).1 =
        [(.CBC_BRANCH_IF_FALSE_BACKWARD, off)] ∧
      (parser_parse_while_statement_end last off).2 = none ∧
      (parser_parse_for_statement_end has_update true last off).2 = none ∧
      (parser_parse_do_while_statement_end last off).2 = none) := by
  refine ⟨fun h1 h2 => ?_, fun h => ?_, fun h => ?_⟩ <;>
    cases has_update <;>
    simp_all [parser_parse_while_statement_end, parser_parse_for_statement_end,
      parser_parse_do_while_statement_end, parser_loop_condition_branch,
      backward_branches]

/-- Witness for C3: the default case and the `CBC_PUSH_TRUE` downgrade at a
concrete offset. -/
theorem loop_backward_branch_opcode_selection_witness :
    backward_branches (parser_parse_while_statement_end (some .CBC_PUSH_IDENT) 7).1 =
      [(.CBC_BRANCH_IF_TRUE_BACKWARD, 7)] ∧
    backward_branches (parser_parse_while_statement_end (some .CBC_PUSH_TRUE) 7).1 =
      [(.CBC_JUMP_BACKWARD, 7)] :=
  ⟨((loop_backward_branch_opcode_selection (some .CBC_PUSH_IDENT) true 7).1
      (by decide) (by decide)).1,
   ((loop_backward_branch_opcode_selection (some .CBC_PUSH_TRUE) true 7).2.1 rfl).1⟩

/-! ## C8 -/

/-- C8: when the do-while condition's last pending opcode is
`CBC_PUSH_FALSE`, `parser_parse_do_while_statement_end` emits no backward
branch at all, the `CBC_PUSH_FALSE` is discarded from the last-opcode cache
(`PARSER_CBC_UNAVAILABLE`), and the pending breaks are still patched to the
current position. -/
theorem do_while_push_false_emits_no_backward_branch (off : Nat) :
    (parser_parse_do_while_statement_end (some .CBC_PUSH_FALSE) off).1 =
      [.set_continues_to_current_position, .compile_condition,
       .set_breaks_to_current_position] ∧
    backward_branches (parser_parse_do_while_statement_end (some .CBC_PUSH_FALSE) off).1 = [] ∧
    (parser_parse_do_while_statement_end (some .CBC_PUSH_FALSE) off).2 = none := by
  refine ⟨?_, ?_, ?_⟩ <;>
    simp [parser_parse_do_while_statement_end, backward_branches]

/-! ## C9 -/

/-- C9: for `for (var ident = initializer in expr)` the emitted sequence
starts with an unconditional `CBC_JUMP_FORWARD`, the compiled initializer
occupies the region immediately after the jump, and the jump's branch is
patched to the position just past the initializer, so executing the jump
skips the initializer bytes. -/
theorem for_in_var_initializer_skipped (size0 literal_index initializer_size : Nat) :
    (parser_parse_for_in_var_statement size0 literal_index true initializer_size).head? =
      some (.emit_cbc_forward_branch .CBC_JUMP_FORWARD size0) ∧
    ∀ a b, for_in_event_t.compile_initializer a b ∈
        parser_parse_for_in_var_statement size0 literal_index true initializer_size →
      a = size0 + forward_branch_instr_size ∧
      for_in_event_t.set_branch_to_current_position size0 b ∈
        parser_parse_for_in_var_statement size0 literal_index true initializer_size := by
  constructor
  · simp [parser_parse_for_in_var_statement]
  · intro a b hmem
    simp [parser_parse_for_in_var_statement] at hmem ⊢
    rcases hmem with ⟨ha, hb⟩
    subst ha
    subst hb
    simp

/-- Witness for C9 at concrete sizes. -/
theorem for_in_var_initializer_skipped_witness :
    for_in_event_t.set_branch_to_current_position 0 (forward_branch_instr_size + 3) ∈
      parser_parse_for_in_var_statement 0 9 true 3 := by
  have h := (for_in_var_initializer_skipped 0 9 3).2 (0 + forward_branch_instr_size)
    (0 + forward_branch_instr_size + 3) (by decide)
  simpa [forward_branch_instr_size] using h.2

/-! ## C7 -/

/-- C7: `parser_free_jumps`, walking the statement stack from the failing
iterator down to the `START` sentinel, frees exactly the branch nodes still
pending in `LABEL` frames (break list), `SWITCH`/`SWITCH_NO_DEFAULT` frames
(case list and loop break/continue list) and the four loop frames' branch
lists, so no pending branch node remains afterwards. -/
theorem parser_free_jumps_frees_all_pending (stack : List parser_statement_t) :
    parser_free_jumps stack = pending_branch_nodes stack := by
  induction stack with
  | nil => rfl
  | cons f rest ih =>
    cases f with
    | start => rfl
    | block => exact ih
    | if_s => exact ih
    | else_s => exact ih
    | with_s => exact ih
    | try_s => exact ih
    | label a bl => exact congrArg (fun l => bl ++ l) ih
    | switch_s cl ll => exact congrArg (fun l => (cl ++ ll) ++ l) ih
    | switch_no_default cl ll => exact congrArg (fun l => (cl ++ ll) ++ l) ih
    | do_while ll => exact congrArg (fun l => ll ++ l) ih
    | while_s ll => exact congrArg (fun l => ll ++ l) ih
    | for_s ll => exact congrArg (fun l => ll ++ l) ih
    | for_in ll => exact congrArg (fun l => ll ++ l) ih

/-! ## C2 -/

/-- Counterexample for C2: a catch block whose closing `}` is directly
followed by `finally`.  The function patches the old branch and emits
`CBC_EXT_FINALLY`, but the claimed `CBC_CONTEXT_END` is nowhere in the
emitted actions. -/
theorem try_catch_to_finally_no_context_end :
    parser_parse_try_statement_end .parser_catch_block
        { current := { type := .LEXER_RIGHT_BRACE },
          rest := [{ type := .LEXER_KEYW_FINALLY }, { type := .LEXER_LEFT_BRACE }] } =
      .ok ([.set_branch_to_current_position,
            .emit_cbc_ext_forward_branch .CBC_EXT_FINALLY],
           .updated .parser_finally_block) ∧
    try_end_event_t.emit_cbc .CBC_CONTEXT_END ∉
      [try_end_event_t.set_branch_to_current_position,
       try_end_event_t.emit_cbc_ext_forward_branch .CBC_EXT_FINALLY] := by
  refine ⟨rfl, by decide⟩

/-- C2 (amended): when a catch block ends and the next token is `finally`,
`parser_parse_try_statement_end` patches the stored branch to the current
position, emits `CBC_EXT_FINALLY` as a new forward branch and sets the
frame's phase to `finally_block`; no `CBC_CONTEXT_END` is emitted in this
transition (`CBC_CONTEXT_END` closes the catch context only when no
`finally` follows). -/
theorem try_catch_to_finally_transition (cur t1 t2 : lexer_token_t)
    (rest : List lexer_token_t) (h1 : t1.type = .LEXER_KEYW_FINALLY)
    (h2 : t2.type = .LEXER_LEFT_BRACE) :
    parser_parse_try_statement_end .parser_catch_block
        { current := cur, rest := t1 :: t2 :: rest } =
      .ok ([.set_branch_to_current_position,
            .emit_cbc_ext_forward_branch .CBC_EXT_FINALLY],
           .updated .parser_finally_block) := by
  simp [parser_parse_try_statement_end, lexer_next_token, h1, h2]

/-- Witness for C2 at a concrete token stream. -/
theorem try_catch_to_finally_transition_witness :
    parser_parse_try_statement_end .parser_catch_block
        { current := { type := .LEXER_RIGHT_BRACE },
          rest := [{ type := .LEXER_KEYW_FINALLY }, { type := .LEXER_LEFT_BRACE },
                   { type := .LEXER_SEMICOLON }] } =
      .ok ([.set_branch_to_current_position,
            .emit_cbc_ext_forward_branch .CBC_EXT_FINALLY],
           .updated .parser_finally_block) :=
  try_catch_to_finally_transition { type := .LEXER_RIGHT_BRACE }
    { type := .LEXER_KEYW_FINALLY } { type := .LEXER_LEFT_BRACE }
    [{ type := .LEXER_SEMICOLON }] rfl rfl

/-! ## C6 -/

/-- The use-strict test of the source coincides with the claim's criterion
(ten bytes, no escapes, bytes `"use strict"`). -/
theorem parser_use_strict_check_eq_claim (lit : lexer_lit_location_t) :
    parser_use_strict_check lit = lit_is_use_strict_directive lit := rfl

/-- C6: the directive prologue of `parser_parse_statements` sets
`PARSER_IS_STRICT` exactly when one of its directives is a string literal of
exactly ten bytes, without escape sequences, whose bytes equal
`"use strict"`; a string literal that is re-injected as the start of an
expression statement (hence compiled as an ordinary expression, not a
directive) never sets the flag, and the flag is never cleared. -/
theorem directive_prologue_strict_flag :
    ∀ (flags : parser_status_flags_t) (toks : List lexer_token_t) (res : prologue_result_t),
      parser_parse_statements_prologue flags toks = .ok res →
      (res.status_flags.is_strict = true ↔
        flags.is_strict = true ∨ directive_prologue_sets_strict toks = true) := by
  intro flags toks
  induction flags, toks using parser_parse_statements_prologue.induct with
  | case1 flags =>
    intro res hres
    simp only [parser_parse_statements_prologue, Except.ok.injEq] at hres
    subst hres
    simp [directive_prologue_sets_strict]
  | case2 flags t hstr =>
    intro res hres
    simp only [parser_parse_statements_prologue] at hres
    rw [if_pos hstr] at hres
    simp only [Except.ok.injEq] at hres
    subst hres
    simp [directive_prologue_sets_strict, hstr]
  | case3 flags t1 hstr t ts hrein =>
    intro res hres
    simp only [parser_parse_statements_prologue] at hres
    rw [if_pos hstr, if_pos hrein] at hres
    simp only [Except.ok.injEq] at hres
    subst hres
    simp [directive_prologue_sets_strict, hstr, hrein]
    intro h1 h2 h3 h4 h5 _
    rcases hrein.2 with hnl | hb | hp | hsq | hd <;> simp_all
  | case4 flags t1 hstr t ts hrein hident =>
    intro res hres
    simp only [parser_parse_statements_prologue] at hres
    rw [if_pos hstr, if_neg hrein, if_pos hident] at hres
    simp at hres
  | case5 flags t1 hstr t ts hrein hident hsemi ih =>
    intro res hres
    simp only [parser_parse_statements_prologue] at hres
    rw [if_pos hstr, if_neg hrein, if_neg hident, if_pos hsemi] at hres
    have hiff := ih res hres
    by_cases hhit : parser_use_strict_check t1.lit_location = true
    · simp only [hhit, if_true] at hiff
      simp only [directive_prologue_sets_strict]
      rw [if_pos hstr, if_neg hrein, if_pos hsemi]
      rw [parser_use_strict_check_eq_claim] at hhit
      simp [hhit] at hiff ⊢
      simp [hiff]
    · simp only [hhit, if_false] at hiff
      simp only [directive_prologue_sets_strict]
      rw [if_pos hstr, if_neg hrein, if_pos hsemi]
      rw [parser_use_strict_check_eq_claim] at hhit
      simp only [Bool.not_eq_true] at hhit
      simp [hhit] at hiff ⊢
      simp [hiff, or_assoc]
  | case6 flags t1 hstr t ts hrein hident hsemi ih =>
    intro res hres
    simp only [parser_parse_statements_prologue] at hres
    rw [if_pos hstr, if_neg hrein, if_neg hident, if_neg hsemi] at hres
    have hiff := ih res hres
    by_cases hhit : parser_use_strict_check t1.lit_location = true
    · simp only [hhit, if_true] at hiff
      simp only [directive_prologue_sets_strict]
      rw [if_pos hstr, if_neg hrein, if_neg hsemi]
      rw [parser_use_strict_check_eq_claim] at hhit
      simp [hhit] at hiff ⊢
      simp [hiff]
    · simp only [hhit, if_false] at hiff
      simp only [directive_prologue_sets_strict]
      rw [if_pos hstr, if_neg hrein, if_neg hsemi]
      rw [parser_use_strict_check_eq_claim] at hhit
      simp only [Bool.not_eq_true] at hhit
      simp [hhit] at hiff ⊢
      simp [hiff, or_assoc]
  | case7 flags cur rest hnstr =>
    intro res hres
    cases rest with
    | nil =>
      simp only [parser_parse_statements_prologue] at hres
      rw [if_neg hnstr] at hres
      simp only [Except.ok.injEq] at hres
      subst hres
      simp [directive_prologue_sets_strict, hnstr]
    | cons t ts =>
      simp only [parser_parse_statements_prologue] at hres
      rw [if_neg hnstr] at hres
      simp only [Except.ok.injEq] at hres
      subst hres
      simp [directive_prologue_sets_strict, hnstr]

/-- Witness for C6: a `"use strict"` directive followed by `;` sets the
flag. -/
theorem directive_prologue_strict_flag_witness :
    (({ status_flags := { is_strict := true },
        lexer := { current := lexer_eos_token, rest := [] },
        emitted := [] } : prologue_result_t).status_flags.is_strict = true ↔
      ({} : parser_status_flags_t).is_strict = true ∨
      directive_prologue_sets_strict
        [{ type := .LEXER_LITERAL,
           lit_location := { lit_type := .LEXER_STRING_LITERAL, length := 10,
                             has_escape := false, chars := "use strict" } },
         { type := .LEXER_SEMICOLON }] = true) :=
  directive_prologue_strict_flag {}
    [{ type := .LEXER_LITERAL,
       lit_location := { lit_type := .LEXER_STRING_LITERAL, length := 10,
                         has_escape := false, chars := "use strict" } },
     { type := .LEXER_SEMICOLON }]
    { status_flags := { is_strict := true },
      lexer := { current := lexer_eos_token, rest := [] },
      emitted := [] } rfl

/-! ## C4 -/

theorem parser_statement_is_label_iff (f : parser_statement_t) :
    f.is_label = true ↔ ∃ a bl, f = .label a bl := by
  cases f <;> simp [parser_statement_t.is_label]

theorem parser_statement_is_start_iff (f : parser_statement_t) :
    f.is_start = true ↔ f = .start := by
  cases f <;> simp [parser_statement_t.is_start]

theorem label_chain_hit_cons_nonlabel (name : Nat) (f : parser_statement_t)
    (rest : List parser_statement_t) (hf : f.is_label = false) :
    label_chain_hit name (f :: rest) = false := by
  cases f <;> simp_all [label_chain_hit, parser_statement_t.is_label]


theorem continue_walk_isOk_eq (name : Nat) :
    ∀ (l : List parser_statement_t) (opcode : cbc_opcode_t) (fiws : Bool)
      (li : Option Nat) (idx : Nat),
      except_is_ok (parser_parse_continue_statement_walk name opcode fiws li idx l) =
        (li.isSome && label_chain_hit name l || continue_label_resolvable name l) := by
  intro l
  induction l with
  | nil =>
    intro opcode fiws li idx
    simp [parser_parse_continue_statement_walk, label_chain_hit,
      continue_label_resolvable, except_is_ok]
  | cons f rest ih =>
    intro opcode fiws li idx
    cases f with
    | start =>
      rcases li with _ | j <;>
        simp [parser_parse_continue_statement_walk, except_is_ok,
          label_chain_hit, continue_label_resolvable, parser_statement_t.is_start]
    | label a bl =>
      rcases li with _ | j
      · simp only [parser_parse_continue_statement_walk,
          parser_statement_t.is_with_or_try, parser_statement_t.is_for_in,
          parser_statement_t.is_continue_target]
        rw [ih]
        simp [label_chain_hit, continue_label_resolvable,
          parser_statement_t.is_start, parser_statement_t.is_continue_target]
      · by_cases hname : a = name
        · simp [parser_parse_continue_statement_walk, hname, except_is_ok,
            label_chain_hit, continue_label_resolvable]
        · simp only [parser_parse_continue_statement_walk]
          rw [if_neg hname, ih]
          simp [label_chain_hit, continue_label_resolvable, hname,
            parser_statement_t.is_start, parser_statement_t.is_continue_target]
    | _ =>
      rcases li with _ | j <;>
        (simp only [parser_parse_continue_statement_walk,
           parser_statement_t.is_with_or_try, parser_statement_t.is_for_in,
           parser_statement_t.is_continue_target]
         rw [ih]
         simp [label_chain_hit, continue_label_resolvable,
           parser_statement_t.is_start, parser_statement_t.is_continue_target])

theorem continue_walk_error_code (name : Nat) :
    ∀ (l : List parser_statement_t) (opcode : cbc_opcode_t) (fiws : Bool)
      (li : Option Nat) (idx : Nat) (e : parser_error_t),
      parser_parse_continue_statement_walk name opcode fiws li idx l = .error e →
      e = .PARSER_ERR_INVALID_CONTINUE_LABEL := by
  intro l
  induction l with
  | nil =>
    intro opcode fiws li idx e h
    simp only [parser_parse_continue_statement_walk, Except.error.injEq] at h
    exact h.symm
  | cons f rest ih =>
    intro opcode fiws li idx e h
    cases f with
    | start =>
      rcases li with _ | j <;>
        (simp only [parser_parse_continue_statement_walk, Except.error.injEq] at h
         exact h.symm)
    | label a bl =>
      rcases li with _ | j
      · simp only [parser_parse_continue_statement_walk] at h
        exact ih _ _ _ _ _ h
      · by_cases hname : a = name
        · simp [parser_parse_continue_statement_walk, hname] at h
        · simp only [parser_parse_continue_statement_walk] at h
          rw [if_neg hname] at h
          exact ih _ _ _ _ _ h
    | _ =>
      rcases li with _ | j <;>
        (simp only [parser_parse_continue_statement_walk] at h
         exact ih _ _ _ _ _ h)

theorem label_chain_hit_iff (name : Nat) :
    ∀ l : List parser_statement_t,
      (label_chain_hit name l = true ↔
        ∃ (mid : List parser_statement_t) (bl : List parser_branch_node_t)
          (suf : List parser_statement_t),
          l = mid ++ .label name bl :: suf ∧ ∀ g ∈ mid, g.is_label = true) := by
  intro l
  induction l with
  | nil =>
    constructor
    · intro h; simp [label_chain_hit] at h
    · rintro ⟨mid, bl, suf, h, _⟩
      cases mid <;> simp at h
  | cons f rest ih =>
    cases f with
    | label a bl' =>
      constructor
      · intro h
        simp only [label_chain_hit, Bool.or_eq_true, decide_eq_true_eq] at h
        rcases h with h | h
        · exact ⟨[], bl', rest, by simp [h], by simp⟩
        · obtain ⟨mid, bl, suf, heq, hmid⟩ := ih.mp h
          refine ⟨.label a bl' :: mid, bl, suf, by simp [heq], ?_⟩
          intro g hg
          rcases List.mem_cons.mp hg with rfl | hg
          · simp [parser_statement_t.is_label]
          · exact hmid g hg
      · rintro ⟨mid, bl, suf, heq, hmid⟩
        cases mid with
        | nil =>
          simp at heq
          simp [label_chain_hit, heq.1]
        | cons m mid' =>
          simp at heq
          have hrest : label_chain_hit name rest = true :=
            ih.mpr ⟨mid', bl, suf, heq.2,
              fun g hg => hmid g (List.mem_cons_of_mem _ hg)⟩
          simp [label_chain_hit, hrest]
    | _ =>
      constructor
      · intro h
        rw [label_chain_hit_cons_nonlabel name _ rest
          (by simp [parser_statement_t.is_label])] at h
        exact absurd h (by simp)
      · rintro ⟨mid, bl, suf, heq, hmid⟩
        rcases mid with _ | ⟨m, mid'⟩
        · simp at heq
        · simp at heq
          obtain ⟨h1, h2⟩ := heq
          have hm := hmid m (List.mem_cons_self m mid')
          rw [← h1] at hm
          simp [parser_statement_t.is_label] at hm

theorem continue_label_resolvable_iff (name : Nat) :
    ∀ l, (continue_label_resolvable name l = true ↔ continue_label_targets_loop name l) := by
  intro l
  induction l with
  | nil =>
    constructor
    · intro h; simp [continue_label_resolvable] at h
    · rintro ⟨pre, f, mid, bl, suf, heq, _, _, _⟩
      cases pre <;> simp at heq
  | cons f rest ih =>
    by_cases hs : f.is_start = true
    · obtain rfl := (parser_statement_is_start_iff f).mp hs
      constructor
      · intro h; simp [continue_label_resolvable, parser_statement_t.is_start] at h
      · rintro ⟨pre, f0, mid, bl, suf, heq, hct, hpre, hmid⟩
        cases pre with
        | nil =>
          simp at heq
          obtain ⟨h1, h2⟩ := heq
          rw [← h1] at hct
          simp [parser_statement_t.is_continue_target] at hct
        | cons p pre' =>
          simp at heq
          obtain ⟨h1, h2⟩ := heq
          have hp := hpre p (List.mem_cons_self p pre')
          rw [← h1] at hp
          simp [parser_statement_t.is_start] at hp
    · have hs' : f.is_start = false := by simpa using hs
      by_cases hc : f.is_continue_target = true
      · have hres : continue_label_resolvable name (f :: rest) =
            (label_chain_hit name rest || continue_label_resolvable name rest) := by
          simp [continue_label_resolvable, hs', hc]
        rw [hres]
        constructor
        · intro h
          simp only [Bool.or_eq_true] at h
          rcases h with h | h
          · obtain ⟨mid, bl, suf, heq, hmid⟩ := (label_chain_hit_iff name rest).mp h
            exact ⟨[], f, mid, bl, suf, by simp [heq], hc, by simp, hmid⟩
          · obtain ⟨pre, f0, mid, bl, suf, heq, hct, hpre, hmid⟩ := ih.mp h
            refine ⟨f :: pre, f0, mid, bl, suf, by simp [heq], hct, ?_, hmid⟩
            intro g hg
            rcases List.mem_cons.mp hg with rfl | hg
            · exact hs'
            · exact hpre g hg
        · rintro ⟨pre, f0, mid, bl, suf, heq, hct, hpre, hmid⟩
          cases pre with
          | nil =>
            simp at heq
            have hch : label_chain_hit name rest = true :=
              (label_chain_hit_iff name rest).mpr ⟨mid, bl, suf, heq.2, hmid⟩
            simp [hch]
          | cons p pre' =>
            simp at heq
            have hrest : continue_label_resolvable name rest = true :=
              ih.mpr ⟨pre', f0, mid, bl, suf, heq.2, hct,
                fun g hg => hpre g (List.mem_cons_of_mem _ hg), hmid⟩
            simp [hrest]
      · have hc' : f.is_continue_target = false := by simpa using hc
        have hres : continue_label_resolvable name (f :: rest) =
            continue_label_resolvable name rest := by
          simp [continue_label_resolvable, hs', hc']
        rw [hres]
        constructor
        · intro h
          obtain ⟨pre, f0, mid, bl, suf, heq, hct, hpre, hmid⟩ := ih.mp h
          refine ⟨f :: pre, f0, mid, bl, suf, by simp [heq], hct, ?_, hmid⟩
          intro g hg
          rcases List.mem_cons.mp hg with rfl | hg
          · exact hs'
          · exact hpre g hg
        · rintro ⟨pre, f0, mid, bl, suf, heq, hct, hpre, hmid⟩
          cases pre with
          | nil =>
            simp at heq
            obtain ⟨h1, h2⟩ := heq
            rw [← h1] at hct
            exact absurd hct hc
          | cons p pre' =>
            simp at heq
            exact ih.mpr ⟨pre', f0, mid, bl, suf, heq.2, hct,
              fun g hg => hpre g (List.mem_cons_of_mem _ hg), hmid⟩

/-- C4 (amended): parsing `continue ident` succeeds (filing a continue-marked
branch node into the targeted loop's break/continue list) if and only if a
`LABEL` frame named `ident`, separated from a `DO_WHILE`, `WHILE`, `FOR` or
`FOR_IN` frame only by other `LABEL` frames, lies on the statement stack
before the `START` sentinel; otherwise the walk reaches `START` and raises
`PARSER_ERR_INVALID_CONTINUE_LABEL`.  (The original claim required the label
frame to sit directly above the loop frame.) -/
theorem continue_label_resolution (name : Nat) (stack : List parser_statement_t) :
    (except_is_ok (parser_parse_continue_statement_labeled name stack) = true ↔
      continue_label_targets_loop name stack) ∧
    (¬ continue_label_targets_loop name stack →
      parser_parse_continue_statement_labeled name stack =
        .error .PARSER_ERR_INVALID_CONTINUE_LABEL) := by
  have hok : except_is_ok (parser_parse_continue_statement_labeled name stack) =
      continue_label_resolvable name stack := by
    rw [parser_parse_continue_statement_labeled, continue_walk_isOk_eq]
    simp
  constructor
  · rw [hok]
    exact continue_label_resolvable_iff name stack
  · intro hN
    have hfalse : except_is_ok (parser_parse_continue_statement_labeled name stack) = false := by
      rw [hok]
      by_contra hx
      exact hN ((continue_label_resolvable_iff name stack).mp (by simpa using hx))
    cases hres : parser_parse_continue_statement_labeled name stack with
    | ok r => rw [hres] at hfalse; simp [except_is_ok] at hfalse
    | error e =>
      have he := continue_walk_error_code name stack .CBC_JUMP_FORWARD false none 0 e hres
      rw [he]

/-- Counterexample for C4 as stated: for `a: b: while (...) { continue a; }`
the statement stack is `[WHILE, LABEL b, LABEL a, START]`; the label `a` is
not directly above the loop frame (LABEL b intervenes), yet the parser
accepts the continue.  The claim's direct-adjacency criterion is false
here. -/
theorem continue_label_chain_counterexample :
    except_is_ok (parser_parse_continue_statement_labeled 1
      [.while_s [], .label 2 [], .label 1 [], .start]) = true ∧
    label_directly_above_loop 1 [.while_s [], .label 2 [], .label 1 [], .start] = false := by
  refine ⟨rfl, by decide⟩

/-- Witness for C4: on a stack holding only the `START` sentinel the walk
raises `PARSER_ERR_INVALID_CONTINUE_LABEL`. -/
theorem continue_label_resolution_witness :
    parser_parse_continue_statement_labeled 0 [.start] =
      .error .PARSER_ERR_INVALID_CONTINUE_LABEL := by
  have h := continue_label_resolution 0 [.start]
  exact h.2 fun hP => absurd (h.1.mpr hP) (by decide)


/-! ## C5 -/

theorem parser_scan_primary_dispatch_ne_done (c : scan_context_t) (ty : lexer_token_type_t)
    (st : scan_stack_modes_t) (tok : lexer_token_t) (pre : List scan_stack_modes_t) :
    parser_scan_primary_dispatch c ty st ≠ .done tok pre := by
  unfold parser_scan_primary_dispatch
  cases h : parser_scan_primary_expression c ty st with
  | error e => simp
  | ok r =>
    obtain ⟨b, c', m⟩ := r
    cases b <;> simp [scan_bottom]

theorem parser_scan_end_dispatch_ne_done (c : scan_context_t) (ty : lexer_token_type_t)
    (st : scan_stack_modes_t) (endt : lexer_token_type_t) (tok : lexer_token_t)
    (pre : List scan_stack_modes_t) :
    parser_scan_end_dispatch c ty st endt ≠ .done tok pre := by
  unfold parser_scan_end_dispatch
  cases h : parser_scan_primary_expression_end c ty st endt with
  | error e => simp
  | ok r =>
    obtain ⟨b, c', m⟩ := r
    cases b <;> simp [scan_bottom]

theorem parser_scan_post_dispatch_ne_done (c : scan_context_t) (ty : lexer_token_type_t)
    (st : scan_stack_modes_t) (endt : lexer_token_type_t) (mode : scan_modes_t)
    (tok : lexer_token_t) (pre : List scan_stack_modes_t) :
    parser_scan_post_dispatch c ty st endt mode ≠ .done tok pre := by
  unfold parser_scan_post_dispatch
  rcases h : parser_scan_post_primary_expression c ty with ⟨b, c', m⟩
  cases b
  · simpa using parser_scan_end_dispatch_ne_done c' ty st endt tok pre
  · simp [scan_bottom]

theorem parser_scan_statement_dispatch_ne_done (c : scan_context_t) (ty : lexer_token_type_t)
    (st : scan_stack_modes_t) (mode : scan_modes_t) (tok : lexer_token_t)
    (pre : List scan_stack_modes_t) :
    parser_scan_statement_dispatch c ty st mode ≠ .done tok pre := by
  unfold parser_scan_statement_dispatch
  cases h : parser_scan_statement c ty st with
  | error e => simp
  | ok r =>
    obtain ⟨b, c', m⟩ := r
    cases b <;> simp [scan_bottom]

theorem parser_scan_function_arguments_dispatch_ne_done (c : scan_context_t) (tok : lexer_token_t)
    (pre : List scan_stack_modes_t) :
    parser_scan_function_arguments_dispatch c ≠ .done tok pre := by
  unfold parser_scan_function_arguments_dispatch
  cases h : parser_scan_function_arguments c with
  | error e => simp
  | ok c' => simp [scan_bottom]

theorem parser_scan_property_name_dispatch_ne_done (c : scan_context_t) (tok : lexer_token_t)
    (pre : List scan_stack_modes_t) :
    parser_scan_property_name_dispatch c ≠ .done tok pre := by
  simp only [parser_scan_property_name_dispatch]
  split
  · simp [scan_bottom]
  · split
    · simp [scan_bottom]
    · split
      · simp
      · simp [scan_bottom]

theorem parser_scan_until_step_done_cases (endA endB : lexer_token_type_t) (c : scan_context_t)
    (mode : scan_modes_t) (tok : lexer_token_t) (pre : List scan_stack_modes_t)
    (h : parser_scan_until_step endA endB c mode = .done tok pre) :
    tok = c.lexer.current ∧ pre = c.stack ∧ c.stack_top = .SCAN_STACK_HEAD ∧
    tok.type ≠ .LEXER_EOS ∧
    (tok.type = endA ∨ tok.type = endB ∨
      (endA = .LEXER_SCAN_SWITCH ∧
        (tok.type = .LEXER_KEYW_DEFAULT ∨ tok.type = .LEXER_KEYW_CASE ∨
         tok.type = .LEXER_RIGHT_BRACE))) := by
  simp only [parser_scan_until_step] at h
  split at h
  · exact absurd h (by simp)
  · rename_i h1
    split at h
    · rename_i h2
      injection h with h3 h4
      subst h3
      subst h4
      refine ⟨rfl, rfl, h2.1, h1, ?_⟩
      rcases h2.2 with h | h
      · exact Or.inl h
      · exact Or.inr (Or.inl h)
    · split at h
      · split at h
        · simp [scan_bottom] at h
        · exact absurd h (parser_scan_primary_dispatch_ne_done _ _ _ _ _)
      · exact absurd h (parser_scan_primary_dispatch_ne_done _ _ _ _ _)
      · exact absurd h (parser_scan_post_dispatch_ne_done _ _ _ _ _ _ _)
      · exact absurd h (parser_scan_end_dispatch_ne_done _ _ _ _ _ _)
      · split at h
        · rename_i h3
          injection h with h4 h5
          subst h4
          subst h5
          exact ⟨rfl, rfl, h3.2.1, h1, Or.inr (Or.inr ⟨h3.1, h3.2.2⟩)⟩
        · exact absurd h (parser_scan_statement_dispatch_ne_done _ _ _ _ _ _)
      · exact absurd h (parser_scan_function_arguments_dispatch_ne_done _ _ _)
      · exact absurd h (parser_scan_property_name_dispatch_ne_done _ _ _)

theorem parser_scan_until_run_returned_cases :
    ∀ (fuel : Nat) (endA endB : lexer_token_type_t) (c : scan_context_t)
      (mode : scan_modes_t) (tok : lexer_token_t) (pre : List scan_stack_modes_t),
      parser_scan_until_run fuel endA endB c mode = .returned tok pre →
      pre.headD .SCAN_STACK_HEAD = .SCAN_STACK_HEAD ∧ tok.type ≠ .LEXER_EOS ∧
      (tok.type = endA ∨ tok.type = endB ∨
        (endA = .LEXER_SCAN_SWITCH ∧
          (tok.type = .LEXER_KEYW_DEFAULT ∨ tok.type = .LEXER_KEYW_CASE ∨
           tok.type = .LEXER_RIGHT_BRACE))) := by
  intro fuel
  induction fuel with
  | zero =>
    intro endA endB c mode tok pre h
    exact absurd h (by simp [parser_scan_until_run])
  | succ n ih =>
    intro endA endB c mode tok pre h
    simp only [parser_scan_until_run] at h
    cases hstep : parser_scan_until_step endA endB c mode with
    | done t p =>
      rw [hstep] at h
      injection h with h3 h4
      subst h3
      subst h4
      obtain ⟨e1, e2, e3, e4, e5⟩ := parser_scan_until_step_done_cases endA endB c mode t p hstep
      subst e1
      subst e2
      exact ⟨e3, e4, e5⟩
    | raised e =>
      rw [hstep] at h
      exact absurd h (by simp)
    | again c' m' =>
      rw [hstep] at h
      exact ih endA endB c' m' tok pre h

theorem parser_scan_until_run_eos_raises (fuel : Nat) (endA endB : lexer_token_type_t)
    (c : scan_context_t) (mode : scan_modes_t)
    (h : c.lexer.current.type = .LEXER_EOS) :
    parser_scan_until_run (fuel + 1) endA endB c mode =
      .raised .PARSER_ERR_EXPRESSION_EXPECTED := by
  have hstep : parser_scan_until_step endA endB c mode =
      .raised .PARSER_ERR_EXPRESSION_EXPECTED := by
    simp [parser_scan_until_step, h]
  simp only [parser_scan_until_run]
  rw [hstep]

/-- C5 (amended): `parser_scan_until` returns only when the scan stack top is
the `HEAD` symbol and either the current token equals `end_type` or the
normalized alternate `end_type_b` (for `KEYW_IN` the alternate is
`SEMICOLON`; for `KEYW_CASE` both are normalized to `SCAN_SWITCH`), or the
scan is a switch scan (`end_type` normalized to `SCAN_SWITCH`) terminating in
statement mode on `KEYW_DEFAULT`, `KEYW_CASE` or `RIGHT_BRACE`; `EOS` before
such termination raises `PARSER_ERR_EXPRESSION_EXPECTED`.  (The original
claim allowed only the `end_type`/`end_type_b` tokens, which the switch-scan
return sites violate.) -/
theorem parser_scan_until_termination :
    (∀ (fuel : Nat) (lexer : lexer_state_t) (end_type : lexer_token_type_t)
       (tok : lexer_token_t) (pre : List scan_stack_modes_t),
       parser_scan_until fuel lexer end_type = .returned tok pre →
       pre.headD .SCAN_STACK_HEAD = .SCAN_STACK_HEAD ∧ tok.type ≠ .LEXER_EOS ∧
       (scan_until_claimed_end_token end_type tok.type ∨
         ((end_type = .LEXER_KEYW_CASE ∨ end_type = .LEXER_SCAN_SWITCH) ∧
           (tok.type = .LEXER_KEYW_DEFAULT ∨ tok.type = .LEXER_KEYW_CASE ∨
            tok.type = .LEXER_RIGHT_BRACE)))) ∧
    (∀ (fuel : Nat) (endA endB : lexer_token_type_t) (c : scan_context_t)
       (mode : scan_modes_t), c.lexer.current.type = .LEXER_EOS →
       parser_scan_until_run (fuel + 1) endA endB c mode =
         .raised .PARSER_ERR_EXPRESSION_EXPECTED) := by
  constructor
  · intro fuel lexer end_type tok pre h
    by_cases hcase : end_type = .LEXER_KEYW_CASE
    · rw [parser_scan_until, if_pos hcase] at h
      obtain ⟨e1, e2, e3⟩ := parser_scan_until_run_returned_cases _ _ _ _ _ _ _ h
      refine ⟨e1, e2, ?_⟩
      rcases e3 with h3 | h3 | ⟨_, h3⟩
      · exact Or.inl (by simp [scan_until_claimed_end_token, hcase, h3])
      · exact Or.inl (by simp [scan_until_claimed_end_token, hcase, h3])
      · exact Or.inr ⟨Or.inl hcase, h3⟩
    · by_cases hin : end_type = .LEXER_KEYW_IN
      · rw [parser_scan_until, if_neg hcase] at h
        rw [if_pos hin] at h
        obtain ⟨e1, e2, e3⟩ := parser_scan_until_run_returned_cases _ _ _ _ _ _ _ h
        refine ⟨e1, e2, ?_⟩
        rcases e3 with h3 | h3 | ⟨h3, _⟩
        · exact Or.inl (by simp [scan_until_claimed_end_token, hcase, hin, h3])
        · exact Or.inl (by simp [scan_until_claimed_end_token, hcase, hin, h3])
        · rw [hin] at h3
          exact absurd h3 (by decide)
      · rw [parser_scan_until, if_neg hcase] at h
        rw [if_neg hin] at h
        obtain ⟨e1, e2, e3⟩ := parser_scan_until_run_returned_cases _ _ _ _ _ _ _ h
        refine ⟨e1, e2, ?_⟩
        rcases e3 with h3 | h3 | ⟨h3, h4⟩
        · exact Or.inl (by simp [scan_until_claimed_end_token, hcase, hin, h3])
        · exact Or.inl (by simp [scan_until_claimed_end_token, hcase, hin, h3])
        · exact Or.inr ⟨Or.inr h3, h4⟩
  · intro fuel endA endB c mode h
    exact parser_scan_until_run_eos_raises fuel endA endB c mode h

/-- Counterexample for C5 as stated: a switch scan (`end_type = KEYW_CASE`,
normalized to `SCAN_SWITCH`) returns on a `}` token, which equals neither
`end_type` nor the normalized `end_type_b`. -/
theorem parser_scan_until_switch_counterexample :
    parser_scan_until 1 { current := { type := .LEXER_RIGHT_BRACE }, rest := [] }
        .LEXER_KEYW_CASE =
      .returned { type := .LEXER_RIGHT_BRACE } [.SCAN_STACK_HEAD] ∧
    ¬ scan_until_claimed_end_token .LEXER_KEYW_CASE .LEXER_RIGHT_BRACE := by
  refine ⟨rfl, ?_⟩
  intro hcl
  simp [scan_until_claimed_end_token] at hcl

/-- Witness for C5: a scan that terminates on its `end_type` (`)`), and the
`EOS` raise at a concrete state. -/
theorem parser_scan_until_termination_witness :
    ([scan_stack_modes_t.SCAN_STACK_HEAD].headD .SCAN_STACK_HEAD = .SCAN_STACK_HEAD) ∧
    parser_scan_until_run 1 .LEXER_RIGHT_PAREN .LEXER_RIGHT_PAREN
        { lexer := { current := lexer_eos_token, rest := [] },
          stack := [.SCAN_STACK_HEAD] } .SCAN_MODE_PRIMARY_EXPRESSION =
      .raised .PARSER_ERR_EXPRESSION_EXPECTED :=
  ⟨(parser_scan_until_termination.1 1
      { current := { type := .LEXER_SEMICOLON }, rest := [{ type := .LEXER_RIGHT_PAREN }] }
      .LEXER_RIGHT_PAREN { type := .LEXER_RIGHT_PAREN } [.SCAN_STACK_HEAD] rfl).1,
   parser_scan_until_termination.2 0 .LEXER_RIGHT_PAREN .LEXER_RIGHT_PAREN
     { lexer := { current := lexer_eos_token, rest := [] },
       stack := [.SCAN_STACK_HEAD] } .SCAN_MODE_PRIMARY_EXPRESSION rfl⟩


end JerryParser
